import Mathlib

/-
Verification development for the BoidsProject repository
(src/BoidsProject/main.cpp and src/BoidsProject/main_parallel.cpp).

The per-tick boid update is embedded shallowly over exact rationals:
every float of the C++ code becomes a rational number, and the one
irrational operation, std::sqrt in the speed clamp, is threaded through
the tick as an extra value s constrained by 0 <= s and s ^ 2 = vx ^ 2 + vy ^ 2.
Since such an s exists in the rationals only when the squared speed is a
perfect rational square, the tick is modelled as a step relation rather
than a function.  A second model over Option of rationals (none standing
for a non-finite float value, NaN in the paths analysed here) is used for
the division-by-zero claim, because rational division by zero in Lean
returns zero and would silently erase the NaN behaviour of the C++ code.
-/

namespace Boids

/-! ## Configuration constants, main.cpp lines 6-22 and main_parallel.cpp lines 8-24 -/

def WIDTH : ℚ := 800
def HEIGHT : ℚ := 600
def VISUAL_RANGE : ℚ := 75
def PROTECTED_RANGE : ℚ := 20
def CENTERING_FACTOR : ℚ := 5 / 1000
def AVOID_FACTOR : ℚ := 5 / 100
def MATCHING_FACTOR : ℚ := 5 / 100
def TURN_FACTOR : ℚ := 1
def MIN_SPEED : ℚ := 10
def MAX_SPEED : ℚ := 40
def MAX_BIAS : ℚ := 25 / 100
def BIAS_INCREMENT : ℚ := 5 / 1000

/-- Boid record, main.cpp lines 24-29 and main_parallel.cpp lines 29-34.
The scout_group field is the C++ int tag: 0 no bias, 1 right, 2 left. -/
structure Boid where
  x : ℚ
  y : ℚ
  vx : ℚ
  vy : ℚ
  biasval : ℚ
  scout_group : ℤ
deriving DecidableEq, Repr, Inhabited

/-- Function clamp, main.cpp lines 35-37: fmax(lo, fmin(value, hi)). -/
def clamp (value lo hi : ℚ) : ℚ :=
  max lo (min value hi)

/-- Accumulators of the neighbor scan, main.cpp lines 41-43. -/
structure Accum where
  xpos_avg : ℚ
  ypos_avg : ℚ
  xvel_avg : ℚ
  yvel_avg : ℚ
  neighboring_boids : ℤ
  close_dx : ℚ
  close_dy : ℚ
deriving DecidableEq, Repr

/-- Zero initialisation of the accumulators, main.cpp lines 41-43. -/
def Accum.init : Accum := ⟨0, 0, 0, 0, 0, 0, 0⟩

/-- Body of the inner neighbor loop for one other boid, main.cpp lines 47-63
and main_parallel.cpp lines 54-70. -/
def scanOther (boid : Boid) (acc : Accum) (other : Boid) : Accum :=
  let dx := boid.x - other.x
  let dy := boid.y - other.y
  if |dx| < VISUAL_RANGE ∧ |dy| < VISUAL_RANGE then
    let dist_squared := dx * dx + dy * dy
    if dist_squared < PROTECTED_RANGE * PROTECTED_RANGE then
      { acc with close_dx := acc.close_dx + dx, close_dy := acc.close_dy + dy }
    else if dist_squared < VISUAL_RANGE * VISUAL_RANGE then
      { acc with xpos_avg := acc.xpos_avg + other.x, ypos_avg := acc.ypos_avg + other.y,
                 xvel_avg := acc.xvel_avg + other.vx, yvel_avg := acc.yvel_avg + other.vy,
                 neighboring_boids := acc.neighboring_boids + 1 }
    else acc
  else acc

/-- Inner neighbor loop, main.cpp lines 45-64: iterate over the whole store
in order, j is the running index of other, the target itself is skipped.
The C++ skip is by address, which over a vector of distinct slots is
exactly index equality with the target index i. -/
def scanFrom (boid : Boid) (i : ℕ) : ℕ → List Boid → Accum → Accum
  | _, [], acc => acc
  | j, other :: rest, acc =>
      scanFrom boid i (j + 1) rest (if j = i then acc else scanOther boid acc other)

/-- Full neighbor scan of the store for target index i, main.cpp lines 41-64. -/
def neighborScan (boids : List Boid) (i : ℕ) (boid : Boid) : Accum :=
  scanFrom boid i 0 boids Accum.init

/-- Cohesion and alignment step, main.cpp lines 66-74: only when the
neighbor counter is positive, average the sums and nudge the velocity. -/
def applyNeighborRules (boid : Boid) (acc : Accum) : Boid :=
  if 0 < acc.neighboring_boids then
    let n : ℚ := (acc.neighboring_boids : ℚ)
    let xpos_avg := acc.xpos_avg / n
    let ypos_avg := acc.ypos_avg / n
    let xvel_avg := acc.xvel_avg / n
    let yvel_avg := acc.yvel_avg / n
    { boid with
        vx := boid.vx + ((xpos_avg - boid.x) * CENTERING_FACTOR + (xvel_avg - boid.vx) * MATCHING_FACTOR),
        vy := boid.vy + ((ypos_avg - boid.y) * CENTERING_FACTOR + (yvel_avg - boid.vy) * MATCHING_FACTOR) }
  else boid

/-- Separation step, main.cpp lines 76-77: always applied, scaled by deltaTime. -/
def applyAvoid (dt : ℚ) (boid : Boid) (acc : Accum) : Boid :=
  { boid with
      vx := boid.vx + acc.close_dx * AVOID_FACTOR * dt,
      vy := boid.vy + acc.close_dy * AVOID_FACTOR * dt }

/-- Boundary turn step, main.cpp lines 79-83. -/
def applyBoundary (boid : Boid) : Boid :=
  let vx1 := if boid.x < 0 then boid.vx + TURN_FACTOR else boid.vx
  let vx2 := if boid.x > WIDTH then vx1 - TURN_FACTOR else vx1
  let vy1 := if boid.y < 0 then boid.vy + TURN_FACTOR else boid.vy
  let vy2 := if boid.y > HEIGHT then vy1 - TURN_FACTOR else vy1
  { boid with vx := vx2, vy := vy2 }

/-- Bias dynamics step, main.cpp lines 85-92. -/
def biasDynamics (boid : Boid) : Boid :=
  if boid.scout_group = 1 then
    if boid.vx > 0 then { boid with biasval := min MAX_BIAS (boid.biasval + BIAS_INCREMENT) }
    else { boid with biasval := max BIAS_INCREMENT (boid.biasval - BIAS_INCREMENT) }
  else if boid.scout_group = 2 then
    if boid.vx < 0 then { boid with biasval := min MAX_BIAS (boid.biasval + BIAS_INCREMENT) }
    else { boid with biasval := max BIAS_INCREMENT (boid.biasval - BIAS_INCREMENT) }
  else boid

/-- Bias application step, main.cpp lines 94-99. -/
def applyBias (boid : Boid) : Boid :=
  if boid.scout_group = 1 then
    { boid with vx := (1 - boid.biasval) * boid.vx + boid.biasval }
  else if boid.scout_group = 2 then
    { boid with vx := (1 - boid.biasval) * boid.vx - boid.biasval }
  else boid

/-- State of boid i just before the speed control of main.cpp lines 101-106:
the composition of the scan and of all velocity steps up to the bias
application, main.cpp lines 41-99. -/
def preClamp (boids : List Boid) (i : ℕ) (dt : ℚ) : Boid :=
  let boid := boids.getD i default
  let acc := neighborScan boids i boid
  applyBias (biasDynamics (applyBoundary (applyAvoid dt (applyNeighborRules boid acc) acc)))

/-- Speed control step, main.cpp lines 101-106, with the value of
std::sqrt passed in as the argument speed. -/
def speedClamp (speed : ℚ) (boid : Boid) : Boid :=
  if speed < MIN_SPEED ∨ speed > MAX_SPEED then
    { boid with
        vx := boid.vx / speed * clamp speed MIN_SPEED MAX_SPEED,
        vy := boid.vy / speed * clamp speed MIN_SPEED MAX_SPEED }
  else boid

/-- Position integration, main.cpp lines 108-109. -/
def integrate (dt : ℚ) (boid : Boid) : Boid :=
  { boid with x := boid.x + boid.vx * dt, y := boid.y + boid.vy * dt }

/-- Whole per-boid body of the update loop, main.cpp lines 40-109 and
main_parallel.cpp lines 46-116 (the two bodies are textually identical),
with the sqrt value passed in as the argument s. -/
def update_boid (boids : List Boid) (i : ℕ) (dt s : ℚ) : Boid :=
  integrate dt (speedClamp s (preClamp boids i dt))

/-- Characterisation of the value returned by std::sqrt on the squared
speed of a boid: nonnegative, and squaring gives back the squared speed.
Exact over the rationals only when the squared speed is a perfect square,
which makes the tick a relation rather than a function. -/
def sqrtSpec (boid : Boid) (s : ℚ) : Prop :=
  0 ≤ s ∧ s ^ 2 = boid.vx ^ 2 + boid.vy ^ 2

/-- In-place sequential update loop of update_boids starting at index i,
main.cpp lines 39-111: each step rewrites slot i of the store with the
updated boid and continues, so later boids see earlier boids already
updated.  The sqrt value of each step is constrained by sqrtSpec. -/
inductive SeqFrom (dt : ℚ) : ℕ → List Boid → List Boid → Prop where
  | done : ∀ i boids, boids.length ≤ i → SeqFrom dt i boids boids
  | step : ∀ i boids s out, i < boids.length →
      sqrtSpec (preClamp boids i dt) s →
      SeqFrom dt (i + 1) (boids.set i (update_boid boids i dt s)) out →
      SeqFrom dt i boids out

/-- Function update_boids, main.cpp lines 39-111, as a relation between
the store before and after one tick. -/
def update_boids (dt : ℚ) (boids out : List Boid) : Prop :=
  SeqFrom dt 0 boids out

/-- Loop of update_boids_batch from start_idx to end_idx,
main_parallel.cpp lines 45-118, run on its own (no interleaving). -/
inductive BatchFrom (dt : ℚ) (end_idx : ℕ) : ℕ → List Boid → List Boid → Prop where
  | done : ∀ i boids, end_idx ≤ i → BatchFrom dt end_idx i boids boids
  | step : ∀ i boids s out, i < end_idx →
      sqrtSpec (preClamp boids i dt) s →
      BatchFrom dt end_idx (i + 1) (boids.set i (update_boid boids i dt s)) out →
      BatchFrom dt end_idx i boids out

/-- Function update_boids_batch, main_parallel.cpp lines 45-118, as a
relation: the loop runs from start_idx up to end_idx. -/
def update_boids_batch (dt : ℚ) (start_idx end_idx : ℕ) (boids out : List Boid) : Prop :=
  BatchFrom dt end_idx start_idx boids out

/-- Iterated ticks of the sequential simulation loop, main.cpp lines
133-155: n calls of update_boids, each with its own deltaTime. -/
inductive update_boids_iter : ℕ → List Boid → List Boid → Prop where
  | zero : ∀ boids, update_boids_iter 0 boids boids
  | succ : ∀ n dt boids mid out, update_boids dt boids mid →
      update_boids_iter n mid out → update_boids_iter (n + 1) boids out

/-! ## Parallel scheduler, main_parallel.cpp lines 26-27 and 120-138 -/

/-- Worker count, main_parallel.cpp line 27: NUM_THREADS is exactly the
value returned by std::thread::hardware_concurrency(), taken once.  The
argument hw is that environment-provided value; per the C++ standard it
is 0 when the hardware parallelism cannot be determined.  The code adds
no fallback of any kind. -/
def NUM_THREADS (hw : ℕ) : ℕ := hw

/-- Batch size computation, main_parallel.cpp line 124:
boids.size() / NUM_THREADS.  Division is fallible in C++ (dividing by 0
is undefined behaviour), so the model returns none when the worker count
is zero and the quotient otherwise. -/
def batch_size_checked (N T : ℕ) : Option ℕ :=
  if T = 0 then none else some (N / T)

/-- Start index of batch i, main_parallel.cpp line 128: i * batch_size. -/
def batchStart (N T i : ℕ) : ℕ := i * (N / T)

/-- End index of batch i, main_parallel.cpp line 129: the last batch ends
at boids.size(), every other batch at (i + 1) * batch_size. -/
def batchEnd (N T i : ℕ) : ℕ :=
  if i = T - 1 then N else (i + 1) * (N / T)

/-- Index list of batch i of the scheduler, main_parallel.cpp lines
127-131: the contiguous range from batchStart to batchEnd. -/
def batchIdxs (N T i : ℕ) : List ℕ :=
  List.range' (batchStart N T i) (batchEnd N T i - batchStart N T i)

/-- Execution of per-boid updates on the shared store in a given order of
indices, one boid update at a time.  A run of update_boids_parallel,
main_parallel.cpp lines 120-138, in which workers interleave at whole
boid granularity performs exactly the updates of some interleaving of the
batch index lists, each update reading the current shared store. -/
inductive OrderRun (dt : ℚ) : List ℕ → List Boid → List Boid → Prop where
  | nil : ∀ boids, OrderRun dt [] boids boids
  | cons : ∀ i rest boids s out, i < boids.length →
      sqrtSpec (preClamp boids i dt) s →
      OrderRun dt rest (boids.set i (update_boid boids i dt s)) out →
      OrderRun dt (i :: rest) boids out

/-- Interleaving of two sequences, preserving the order inside each: the
set of whole-boid schedules two concurrent workers can produce. -/
inductive Interleave : List ℕ → List ℕ → List ℕ → Prop where
  | nil : Interleave [] [] []
  | left : ∀ a l r o, Interleave l r o → Interleave (a :: l) r (a :: o)
  | right : ∀ a l r o, Interleave l r o → Interleave l (a :: r) (a :: o)

/-! ## Specification-side characterisation of the neighbor scan (claim C6) -/

/-- Rectangular pre-filter of the scan, main.cpp line 50, as a predicate
over the target and one other boid. -/
def inRect (boid other : Boid) : Bool :=
  decide (|boid.x - other.x| < VISUAL_RANGE) && decide (|boid.y - other.y| < VISUAL_RANGE)

/-- Squared distance of the scan, main.cpp line 51. -/
def dist2 (boid other : Boid) : ℚ :=
  (boid.x - other.x) * (boid.x - other.x) + (boid.y - other.y) * (boid.y - other.y)

/-- Separation test of the scan, main.cpp line 53: pre-filtered and
strictly inside the protected range. -/
def isClose (boid other : Boid) : Bool :=
  inRect boid other && decide (dist2 boid other < PROTECTED_RANGE * PROTECTED_RANGE)

/-- Cohesion and alignment test of the scan, main.cpp line 56:
pre-filtered, not in the protected disc, strictly inside the visual disc. -/
def isVisible (boid other : Boid) : Bool :=
  inRect boid other && !decide (dist2 boid other < PROTECTED_RANGE * PROTECTED_RANGE)
    && decide (dist2 boid other < VISUAL_RANGE * VISUAL_RANGE)

/-- Specification-side accumulator over an indexed slice of the store:
close pairs feed the separation sums, visible ones the cohesion and
alignment sums and the counter, self (index i) and all boids failing the
tests contribute nothing.  This definition follows the wording of the
claim; the scan of the code is proved equal to it. -/
def specOver (boid : Boid) (i : ℕ) (l : List (ℕ × Boid)) : Accum :=
  let others := (l.filter (fun p => decide (p.1 ≠ i))).map Prod.snd
  let closeOnes := others.filter (fun o => isClose boid o)
  let visOnes := others.filter (fun o => isVisible boid o)
  { xpos_avg := (visOnes.map Boid.x).sum,
    ypos_avg := (visOnes.map Boid.y).sum,
    xvel_avg := (visOnes.map Boid.vx).sum,
    yvel_avg := (visOnes.map Boid.vy).sum,
    neighboring_boids := visOnes.length,
    close_dx := (closeOnes.map (fun o => boid.x - o.x)).sum,
    close_dy := (closeOnes.map (fun o => boid.y - o.y)).sum }

/-- Specification-side accumulator for target index i over the whole
store. -/
def specAccum (boids : List Boid) (i : ℕ) (boid : Boid) : Accum :=
  specOver boid i boids.enum

/-! ## Non-finite-aware model of the same code (claim C1)

Floats are modelled as Option of rationals: some q is the finite value q,
none is a non-finite value (NaN on every path analysed here, since the
only operation creating none from finite operands in this program is the
0 / 0 of the speed clamp).  Arithmetic propagates none, every ordered
comparison involving none is false, division by zero yields none. -/

/-- Float value: some finite rational, or the non-finite value none. -/
abbrev FP := Option ℚ

/-- Addition with non-finite propagation. -/
def fadd : FP → FP → FP
  | some a, some b => some (a + b)
  | _, _ => none

/-- Subtraction with non-finite propagation. -/
def fsub : FP → FP → FP
  | some a, some b => some (a - b)
  | _, _ => none

/-- Multiplication with non-finite propagation. -/
def fmul : FP → FP → FP
  | some a, some b => some (a * b)
  | _, _ => none

/-- Division: by zero it yields the non-finite value, and non-finite
operands propagate. -/
def fdiv : FP → FP → FP
  | some a, some b => if b = 0 then none else some (a / b)
  | _, _ => none

/-- Absolute value, std::abs, with non-finite propagation. -/
def fabs : FP → FP
  | some a => some |a|
  | none => none

/-- Strict less-than: any comparison involving a non-finite value is
false, as for NaN in IEEE semantics. -/
def flt : FP → FP → Bool
  | some a, some b => decide (a < b)
  | _, _ => false

/-- Function std::fmin used by clamp: on finite values the minimum, and
when one operand is NaN the other operand is returned. -/
def fminIEEE : FP → FP → FP
  | some a, some b => some (min a b)
  | some a, none => some a
  | none, b => b

/-- Function std::fmax used by clamp: on finite values the maximum, and
when one operand is NaN the other operand is returned. -/
def fmaxIEEE : FP → FP → FP
  | some a, some b => some (max a b)
  | some a, none => some a
  | none, b => b

/-- Function clamp of main.cpp lines 35-37 over float values. -/
def clampF (value lo hi : FP) : FP :=
  fmaxIEEE lo (fminIEEE value hi)

/-- Function std::min on floats: (b < a) selects b, otherwise a. -/
def fminStd (a b : FP) : FP := if flt b a then b else a

/-- Function std::max on floats: (a < b) selects b, otherwise a. -/
def fmaxStd (a b : FP) : FP := if flt a b then b else a

/-- Boid record over float values, main.cpp lines 24-29. -/
structure BoidF where
  x : FP
  y : FP
  vx : FP
  vy : FP
  biasval : FP
  scout_group : ℤ
deriving DecidableEq, Repr, Inhabited

/-- Accumulators of the neighbor scan over float values. -/
structure AccumF where
  xpos_avg : FP
  ypos_avg : FP
  xvel_avg : FP
  yvel_avg : FP
  neighboring_boids : ℤ
  close_dx : FP
  close_dy : FP
deriving DecidableEq, Repr

/-- Zero accumulators over float values. -/
def AccumF.init : AccumF := ⟨some 0, some 0, some 0, some 0, 0, some 0, some 0⟩

/-- Body of the inner neighbor loop over float values, main.cpp lines 47-63. -/
def scanOtherF (boid : BoidF) (acc : AccumF) (other : BoidF) : AccumF :=
  let dx := fsub boid.x other.x
  let dy := fsub boid.y other.y
  if flt (fabs dx) (some VISUAL_RANGE) && flt (fabs dy) (some VISUAL_RANGE) then
    let dist_squared := fadd (fmul dx dx) (fmul dy dy)
    if flt dist_squared (some (PROTECTED_RANGE * PROTECTED_RANGE)) then
      { acc with close_dx := fadd acc.close_dx dx, close_dy := fadd acc.close_dy dy }
    else if flt dist_squared (some (VISUAL_RANGE * VISUAL_RANGE)) then
      { acc with xpos_avg := fadd acc.xpos_avg other.x, ypos_avg := fadd acc.ypos_avg other.y,
                 xvel_avg := fadd acc.xvel_avg other.vx, yvel_avg := fadd acc.yvel_avg other.vy,
                 neighboring_boids := acc.neighboring_boids + 1 }
    else acc
  else acc

/-- Inner neighbor loop over float values, main.cpp lines 45-64. -/
def scanFromF (boid : BoidF) (i : ℕ) : ℕ → List BoidF → AccumF → AccumF
  | _, [], acc => acc
  | j, other :: rest, acc =>
      scanFromF boid i (j + 1) rest (if j = i then acc else scanOtherF boid acc other)

/-- Full neighbor scan over float values. -/
def neighborScanF (boids : List BoidF) (i : ℕ) (boid : BoidF) : AccumF :=
  scanFromF boid i 0 boids AccumF.init

/-- Cohesion and alignment step over float values, main.cpp lines 66-74. -/
def applyNeighborRulesF (boid : BoidF) (acc : AccumF) : BoidF :=
  if 0 < acc.neighboring_boids then
    let n : FP := some (acc.neighboring_boids : ℚ)
    let xpos_avg := fdiv acc.xpos_avg n
    let ypos_avg := fdiv acc.ypos_avg n
    let xvel_avg := fdiv acc.xvel_avg n
    let yvel_avg := fdiv acc.yvel_avg n
    { boid with
        vx := fadd boid.vx (fadd (fmul (fsub xpos_avg boid.x) (some CENTERING_FACTOR))
                                 (fmul (fsub xvel_avg boid.vx) (some MATCHING_FACTOR))),
        vy := fadd boid.vy (fadd (fmul (fsub ypos_avg boid.y) (some CENTERING_FACTOR))
                                 (fmul (fsub yvel_avg boid.vy) (some MATCHING_FACTOR))) }
  else boid

/-- Separation step over float values, main.cpp lines 76-77. -/
def applyAvoidF (dt : ℚ) (boid : BoidF) (acc : AccumF) : BoidF :=
  { boid with
      vx := fadd boid.vx (fmul (fmul acc.close_dx (some AVOID_FACTOR)) (some dt)),
      vy := fadd boid.vy (fmul (fmul acc.close_dy (some AVOID_FACTOR)) (some dt)) }

/-- Boundary turn step over float values, main.cpp lines 79-83. -/
def applyBoundaryF (boid : BoidF) : BoidF :=
  let vx1 := if flt boid.x (some 0) then fadd boid.vx (some TURN_FACTOR) else boid.vx
  let vx2 := if flt (some WIDTH) boid.x then fsub vx1 (some TURN_FACTOR) else vx1
  let vy1 := if flt boid.y (some 0) then fadd boid.vy (some TURN_FACTOR) else boid.vy
  let vy2 := if flt (some HEIGHT) boid.y then fsub vy1 (some TURN_FACTOR) else vy1
  { boid with vx := vx2, vy := vy2 }

/-- Bias dynamics step over float values, main.cpp lines 85-92. -/
def biasDynamicsF (boid : BoidF) : BoidF :=
  if boid.scout_group = 1 then
    if flt (some 0) boid.vx then
      { boid with biasval := fminStd (some MAX_BIAS) (fadd boid.biasval (some BIAS_INCREMENT)) }
    else
      { boid with biasval := fmaxStd (some BIAS_INCREMENT) (fsub boid.biasval (some BIAS_INCREMENT)) }
  else if boid.scout_group = 2 then
    if flt boid.vx (some 0) then
      { boid with biasval := fminStd (some MAX_BIAS) (fadd boid.biasval (some BIAS_INCREMENT)) }
    else
      { boid with biasval := fmaxStd (some BIAS_INCREMENT) (fsub boid.biasval (some BIAS_INCREMENT)) }
  else boid

/-- Bias application step over float values, main.cpp lines 94-99. -/
def applyBiasF (boid : BoidF) : BoidF :=
  if boid.scout_group = 1 then
    { boid with vx := fadd (fmul (fsub (some 1) boid.biasval) boid.vx) boid.biasval }
  else if boid.scout_group = 2 then
    { boid with vx := fsub (fmul (fsub (some 1) boid.biasval) boid.vx) boid.biasval }
  else boid

/-- State of boid i just before the speed control, over float values. -/
def preClampF (boids : List BoidF) (i : ℕ) (dt : ℚ) : BoidF :=
  let boid := boids.getD i default
  let acc := neighborScanF boids i boid
  applyBiasF (biasDynamicsF (applyBoundaryF (applyAvoidF dt (applyNeighborRulesF boid acc) acc)))

/-- Branch condition of the speed control, main.cpp line 103:
speed < MIN_SPEED or speed > MAX_SPEED, with NaN comparing false. -/
def clampCondF (speed : FP) : Bool :=
  flt speed (some MIN_SPEED) || flt (some MAX_SPEED) speed

/-- Speed control step over float values, main.cpp lines 101-106. -/
def speedClampF (speed : FP) (boid : BoidF) : BoidF :=
  if clampCondF speed then
    { boid with
        vx := fmul (fdiv boid.vx speed) (clampF speed (some MIN_SPEED) (some MAX_SPEED)),
        vy := fmul (fdiv boid.vy speed) (clampF speed (some MIN_SPEED) (some MAX_SPEED)) }
  else boid

/-- Position integration over float values, main.cpp lines 108-109. -/
def integrateF (dt : ℚ) (boid : BoidF) : BoidF :=
  { boid with x := fadd boid.x (fmul boid.vx (some dt)), y := fadd boid.y (fmul boid.vy (some dt)) }

/-- Whole per-boid update over float values, with the sqrt value passed
in as the argument s. -/
def update_boidF (boids : List BoidF) (i : ℕ) (dt : ℚ) (s : FP) : BoidF :=
  integrateF dt (speedClampF s (preClampF boids i dt))

/-- Characterisation of std::sqrt over float values: on a finite
nonnegative square it returns the nonnegative root, and on a non-finite
argument it returns a non-finite value. -/
def sqrtSpecF (boid : BoidF) (s : FP) : Prop :=
  match fadd (fmul boid.vx boid.vx) (fmul boid.vy boid.vy), s with
  | some a, some b => 0 ≤ b ∧ b ^ 2 = a
  | none, none => True
  | _, _ => False

/-- In-place sequential update loop over float values, main.cpp lines 39-111. -/
inductive SeqFromF (dt : ℚ) : ℕ → List BoidF → List BoidF → Prop where
  | done : ∀ i boids, boids.length ≤ i → SeqFromF dt i boids boids
  | step : ∀ i boids s out, i < boids.length →
      sqrtSpecF (preClampF boids i dt) s →
      SeqFromF dt (i + 1) (boids.set i (update_boidF boids i dt s)) out →
      SeqFromF dt i boids out

/-- Function update_boids over float values, one tick. -/
def update_boidsF (dt : ℚ) (boids out : List BoidF) : Prop :=
  SeqFromF dt 0 boids out

/-- Iterated ticks over float values, each with its own deltaTime. -/
inductive update_boidsF_iter : ℕ → List BoidF → List BoidF → Prop where
  | zero : ∀ boids, update_boidsF_iter 0 boids boids
  | succ : ∀ n dt boids mid out, update_boidsF dt boids mid →
      update_boidsF_iter n mid out → update_boidsF_iter (n + 1) boids out

/-- Corrupted agent: position and velocity are all non-finite. -/
def isNaNBoid (boid : BoidF) : Prop :=
  boid.x = none ∧ boid.y = none ∧ boid.vx = none ∧ boid.vy = none

/-! ## Generic helper lemmas -/

theorem getD_set_self {α : Type} [Inhabited α] (l : List α) (i : ℕ) (a : α)
    (h : i < l.length) : (l.set i a).getD i default = a := by
  induction l generalizing i with
  | nil => simp at h
  | cons hd tl ih =>
    cases i with
    | zero => simp [List.set, List.getD]
    | succ k => simpa [List.set, List.getD] using ih k (by simpa using h)

theorem getD_set_ne {α : Type} [Inhabited α] (l : List α) (i j : ℕ) (a : α)
    (h : i ≠ j) : (l.set i a).getD j default = l.getD j default := by
  induction l generalizing i j with
  | nil => simp [List.set]
  | cons hd tl ih =>
    cases i with
    | zero =>
      cases j with
      | zero => exact absurd rfl h
      | succ m => simp [List.set, List.getD]
    | succ k =>
      cases j with
      | zero => simp [List.set, List.getD]
      | succ m => simpa [List.set, List.getD] using ih k m (fun hkm => h (by rw [hkm]))

/-! ## Projection lemmas for the pipeline stages -/

@[simp] theorem integrate_vx (dt : ℚ) (b : Boid) : (integrate dt b).vx = b.vx := rfl
@[simp] theorem integrate_vy (dt : ℚ) (b : Boid) : (integrate dt b).vy = b.vy := rfl
@[simp] theorem integrate_biasval (dt : ℚ) (b : Boid) : (integrate dt b).biasval = b.biasval := rfl
@[simp] theorem integrate_group (dt : ℚ) (b : Boid) : (integrate dt b).scout_group = b.scout_group := rfl

theorem speedClamp_biasval (s : ℚ) (b : Boid) : (speedClamp s b).biasval = b.biasval := by
  unfold speedClamp; split <;> rfl

theorem speedClamp_group (s : ℚ) (b : Boid) : (speedClamp s b).scout_group = b.scout_group := by
  unfold speedClamp; split <;> rfl

theorem applyBias_biasval (b : Boid) : (applyBias b).biasval = b.biasval := by
  unfold applyBias; split <;> [rfl; split <;> rfl]

theorem applyBias_group (b : Boid) : (applyBias b).scout_group = b.scout_group := by
  unfold applyBias; split <;> [rfl; split <;> rfl]

theorem biasDynamics_group (b : Boid) : (biasDynamics b).scout_group = b.scout_group := by
  unfold biasDynamics
  split
  · split <;> rfl
  · split
    · split <;> rfl
    · rfl

theorem applyBoundary_biasval (b : Boid) : (applyBoundary b).biasval = b.biasval := rfl
theorem applyBoundary_group (b : Boid) : (applyBoundary b).scout_group = b.scout_group := rfl
theorem applyAvoid_biasval (dt : ℚ) (b : Boid) (a : Accum) : (applyAvoid dt b a).biasval = b.biasval := rfl
theorem applyAvoid_group (dt : ℚ) (b : Boid) (a : Accum) : (applyAvoid dt b a).scout_group = b.scout_group := rfl

theorem applyNeighborRules_biasval (b : Boid) (a : Accum) :
    (applyNeighborRules b a).biasval = b.biasval := by
  unfold applyNeighborRules; split <;> rfl

theorem applyNeighborRules_group (b : Boid) (a : Accum) :
    (applyNeighborRules b a).scout_group = b.scout_group := by
  unfold applyNeighborRules; split <;> rfl

theorem update_boid_group (boids : List Boid) (i : ℕ) (dt s : ℚ) :
    (update_boid boids i dt s).scout_group = (boids.getD i default).scout_group := by
  unfold update_boid preClamp
  rw [integrate_group, speedClamp_group, applyBias_group, biasDynamics_group,
    applyBoundary_group, applyAvoid_group, applyNeighborRules_group]

/-! ## Claim theorems -/

/-- C3: for every population size N and every worker count T with 1 <= T,
the scheduler partition has first T - 1 batches of exactly N / T indices,
a last batch of N - (T - 1) * (N / T) indices, and every index below N in
exactly one batch. -/
theorem C3_partition_complete (N T : ℕ) (hT : 1 ≤ T) :
    (∀ i, i < T - 1 → batchEnd N T i - batchStart N T i = N / T) ∧
    (batchEnd N T (T - 1) - batchStart N T (T - 1) = N - (T - 1) * (N / T)) ∧
    (∀ j, j < N → ∃! i, i < T ∧ batchStart N T i ≤ j ∧ j < batchEnd N T i) := by
  refine ⟨?_, ?_, ?_⟩
  · intro i hi
    have hne : i ≠ T - 1 := Nat.ne_of_lt hi
    have hend : batchEnd N T i = i * (N / T) + N / T := by
      rw [batchEnd, if_neg hne, Nat.succ_mul]
    rw [hend, batchStart, Nat.add_sub_cancel_left]
  · simp [batchEnd, batchStart]
  · intro j hj
    have hTpos : 0 < T := hT
    have hlastlt : T - 1 < T := Nat.sub_lt hTpos Nat.one_pos
    by_cases hb0 : N / T = 0
    · refine ⟨T - 1, ⟨hlastlt, ?_, ?_⟩, ?_⟩
      · simp [batchStart, hb0]
      · simp [batchEnd, hj]
      · rintro i ⟨hi, hsi, hei⟩
        by_contra hne
        have : batchEnd N T i = (i + 1) * (N / T) := by simp [batchEnd, hne]
        rw [this, hb0, Nat.mul_zero] at hei
        exact Nat.not_lt_zero j hei
    · have hbpos : 0 < N / T := Nat.pos_of_ne_zero hb0
      by_cases hlast : (T - 1) * (N / T) ≤ j
      · refine ⟨T - 1, ⟨hlastlt, ?_, ?_⟩, ?_⟩
        · simpa [batchStart] using hlast
        · simp [batchEnd, hj]
        · rintro i ⟨hi, hsi, hei⟩
          by_contra hne
          have hilt : i < T - 1 := by omega
          have : batchEnd N T i = (i + 1) * (N / T) := by
            simp [batchEnd, Nat.ne_of_lt hilt]
          rw [this] at hei
          have hle : (i + 1) * (N / T) ≤ (T - 1) * (N / T) :=
            Nat.mul_le_mul_right _ (by omega)
          omega
      · push_neg at hlast
        have hidx : j / (N / T) < T - 1 := (Nat.div_lt_iff_lt_mul hbpos).mpr hlast
        refine ⟨j / (N / T), ⟨by omega, ?_, ?_⟩, ?_⟩
        · simpa [batchStart] using Nat.div_mul_le_self j (N / T)
        · have hne : j / (N / T) ≠ T - 1 := Nat.ne_of_lt hidx
          have hstep : j < (j / (N / T) + 1) * (N / T) := by
            have h3 := (Nat.div_lt_iff_lt_mul hbpos).mp (Nat.lt_succ_self (j / (N / T)))
            rw [Nat.succ_eq_add_one] at h3
            exact h3
          simpa [batchEnd, hne] using hstep
        · rintro i ⟨hi, hsi, hei⟩
          have hne : i ≠ T - 1 := by
            intro h
            rw [h] at hsi
            simp only [batchStart] at hsi
            omega
          have hend : batchEnd N T i = (i + 1) * (N / T) := by simp [batchEnd, hne]
          rw [hend] at hei
          simp only [batchStart] at hsi
          have h1 : i ≤ j / (N / T) := (Nat.le_div_iff_mul_le hbpos).mpr hsi
          have h2 : j / (N / T) < i + 1 := (Nat.div_lt_iff_lt_mul hbpos).mpr hei
          omega

/-- C3 witness: the partition statement instantiated at N = 10, T = 3. -/
theorem C3_partition_complete_witness :
    (1 ≤ 3) ∧
    ((∀ i, i < 3 - 1 → batchEnd 10 3 i - batchStart 10 3 i = 10 / 3) ∧
     (batchEnd 10 3 (3 - 1) - batchStart 10 3 (3 - 1) = 10 - (3 - 1) * (10 / 3)) ∧
     (∀ j, j < 10 → ∃! i, i < 3 ∧ batchStart 10 3 i ≤ j ∧ j < batchEnd 10 3 i)) :=
  ⟨by decide, C3_partition_complete 10 3 (by decide)⟩

/-- C4 counterexample: when the hardware parallelism is undetermined the
C++ value std::thread::hardware_concurrency() is 0, the code installs no
default, so the worker count is 0 (not at least 1) and the batch size
computation divides by zero. -/
theorem C4_counterexample :
    ¬ 1 ≤ NUM_THREADS 0 ∧ batch_size_checked 200 (NUM_THREADS 0) = none := by
  exact ⟨by decide, rfl⟩

/-- C4 amended: the worker count is exactly the hardware parallelism
value with no fallback; when that value is at least 1 the batch size
division is well defined, and when it is 0 (undetermined) the division
N / T is a division by zero. -/
theorem C4_thread_count (hw : ℕ) :
    NUM_THREADS hw = hw ∧
    (1 ≤ hw → 1 ≤ NUM_THREADS hw ∧
      ∀ N, batch_size_checked N (NUM_THREADS hw) = some (N / hw)) ∧
    (hw = 0 → ∀ N, batch_size_checked N (NUM_THREADS hw) = none) := by
  refine ⟨rfl, fun h => ⟨h, fun N => ?_⟩, fun h N => ?_⟩
  · have hne : hw ≠ 0 := by omega
    simp [batch_size_checked, NUM_THREADS, hne]
  · simp [batch_size_checked, NUM_THREADS, h]

/-- C4 witness: the amended statement instantiated at hardware value 8. -/
theorem C4_thread_count_witness :
    1 ≤ NUM_THREADS 8 ∧ batch_size_checked 200 (NUM_THREADS 8) = some 25 := by
  have h := C4_thread_count 8
  exact ⟨(h.2.1 (by decide)).1, by rw [(h.2.1 (by decide)).2 200]⟩

/-- C9: the bias application computes vx = (1 - biasVal) * vx + biasVal
for group 1 (BiasRight) and vx = (1 - biasVal) * vx - biasVal for group 2
(BiasLeft); and a BiasRight agent reaching the bias steps with
biasVal = 0 and vx = 5 first ramps biasVal to BIAS_INCREMENT = 1/200 and
then gets vx = (1 - 1/200) * 5 + 1/200 = 249/50 = 4.98. -/
theorem C9_bias_formula :
    (∀ b : Boid,
      (b.scout_group = 1 → (applyBias b).vx = (1 - b.biasval) * b.vx + b.biasval) ∧
      (b.scout_group = 2 → (applyBias b).vx = (1 - b.biasval) * b.vx - b.biasval)) ∧
    (∀ b : Boid, b.scout_group = 1 → b.biasval = 0 → b.vx = 5 →
      (biasDynamics b).biasval = BIAS_INCREMENT ∧
      (applyBias (biasDynamics b)).vx = 249 / 50) := by
  constructor
  · intro b
    constructor
    · intro h; simp [applyBias, h]
    · intro h; simp [applyBias, h]
  · intro b h1 h2 h3
    have hdyn : biasDynamics b = { b with biasval := BIAS_INCREMENT } := by
      simp only [biasDynamics, h1, if_pos, h3]
      norm_num [h2, MAX_BIAS, BIAS_INCREMENT, min_def]
    constructor
    · rw [hdyn]
    · rw [hdyn]
      simp only [applyBias, h1, if_pos]
      simp only [h3]
      norm_num [BIAS_INCREMENT]

/-- C9 witness: the formula applied to the concrete agent of the
scenario. -/
theorem C9_bias_formula_witness :
    (biasDynamics ⟨0, 0, 5, 0, 0, 1⟩).biasval = BIAS_INCREMENT ∧
    (applyBias (biasDynamics ⟨0, 0, 5, 0, 0, 1⟩)).vx = 249 / 50 :=
  C9_bias_formula.2 ⟨0, 0, 5, 0, 0, 1⟩ rfl rfl rfl

/-- C2: for every agent, tick and deltaTime, if the pre-clamp speed s
(the sqrt of vx squared plus vy squared) is nonzero, then after the
velocity update the speed lies between MIN_SPEED and MAX_SPEED, the new
velocity is a positive multiple of the pre-clamp one (direction
preserved) with factor clamp(s, MIN, MAX) / s when s is outside the
interval, and the velocity is unchanged when s is inside. -/
theorem C2_speed_bound (boids : List Boid) (i : ℕ) (dt s : ℚ)
    (hs : sqrtSpec (preClamp boids i dt) s) (hs0 : s ≠ 0) :
    ∃ sPost, 0 ≤ sPost ∧
      sPost ^ 2 = (update_boid boids i dt s).vx ^ 2 + (update_boid boids i dt s).vy ^ 2 ∧
      MIN_SPEED ≤ sPost ∧ sPost ≤ MAX_SPEED ∧
      ∃ k : ℚ, 0 < k ∧
        (update_boid boids i dt s).vx = k * (preClamp boids i dt).vx ∧
        (update_boid boids i dt s).vy = k * (preClamp boids i dt).vy ∧
        ((s < MIN_SPEED ∨ s > MAX_SPEED) → k = clamp s MIN_SPEED MAX_SPEED / s) ∧
        (¬(s < MIN_SPEED ∨ s > MAX_SPEED) → k = 1 ∧
          (update_boid boids i dt s).vx = (preClamp boids i dt).vx ∧
          (update_boid boids i dt s).vy = (preClamp boids i dt).vy) := by
  obtain ⟨hsnn, hsq⟩ := hs
  have hspos : 0 < s := lt_of_le_of_ne hsnn (Ne.symm hs0)
  set b := preClamp boids i dt with hb
  have hvx : (update_boid boids i dt s).vx = (speedClamp s b).vx := rfl
  have hvy : (update_boid boids i dt s).vy = (speedClamp s b).vy := rfl
  by_cases hcond : s < MIN_SPEED ∨ s > MAX_SPEED
  · set c := clamp s MIN_SPEED MAX_SPEED with hc
    have hc_lo : MIN_SPEED ≤ c := le_max_left _ _
    have hc_hi : c ≤ MAX_SPEED := by
      apply max_le
      · norm_num [MIN_SPEED, MAX_SPEED]
      · exact min_le_right _ _
    have hcpos : 0 < c := lt_of_lt_of_le (by norm_num [MIN_SPEED]) hc_lo
    have hclamp : speedClamp s b = { b with vx := b.vx / s * c, vy := b.vy / s * c } := by
      rw [speedClamp, if_pos hcond]
    refine ⟨c, le_of_lt hcpos, ?_, hc_lo, hc_hi, c / s, div_pos hcpos hspos, ?_, ?_, ?_, ?_⟩
    · rw [hvx, hvy, hclamp]
      show c ^ 2 = (b.vx / s * c) ^ 2 + (b.vy / s * c) ^ 2
      have hexp : (b.vx / s * c) ^ 2 + (b.vy / s * c) ^ 2
          = (b.vx ^ 2 + b.vy ^ 2) * (c / s) ^ 2 := by ring
      rw [hexp, ← hsq]
      field_simp
    · rw [hvx, hclamp]
      show b.vx / s * c = c / s * b.vx
      ring
    · rw [hvy, hclamp]
      show b.vy / s * c = c / s * b.vy
      ring
    · intro _; rfl
    · intro h; exact absurd hcond h
  · have hclamp : speedClamp s b = b := by rw [speedClamp, if_neg hcond]
    push_neg at hcond
    refine ⟨s, hsnn, ?_, hcond.1, hcond.2, 1, one_pos, ?_, ?_, ?_, ?_⟩
    · rw [hvx, hvy, hclamp]; exact hsq
    · rw [hvx, hclamp, one_mul]
    · rw [hvy, hclamp, one_mul]
    · intro h; exact absurd h (by push_neg; exact hcond)
    · intro _; exact ⟨rfl, by rw [hvx, hclamp], by rw [hvy, hclamp]⟩

/-- C2 witness: a single boid with velocity (3, 4), pre-clamp speed 5,
gets clamped up to speed 10. -/
theorem C2_speed_bound_witness :
    sqrtSpec (preClamp [⟨400, 300, 3, 4, 0, 0⟩] 0 0) 5 ∧ (5 : ℚ) ≠ 0 ∧
    (∃ sPost, 0 ≤ sPost ∧
      sPost ^ 2 = (update_boid [⟨400, 300, 3, 4, 0, 0⟩] 0 0 5).vx ^ 2 +
        (update_boid [⟨400, 300, 3, 4, 0, 0⟩] 0 0 5).vy ^ 2 ∧
      MIN_SPEED ≤ sPost ∧ sPost ≤ MAX_SPEED ∧
      ∃ k : ℚ, 0 < k ∧
        (update_boid [⟨400, 300, 3, 4, 0, 0⟩] 0 0 5).vx = k * (preClamp [⟨400, 300, 3, 4, 0, 0⟩] 0 0).vx ∧
        (update_boid [⟨400, 300, 3, 4, 0, 0⟩] 0 0 5).vy = k * (preClamp [⟨400, 300, 3, 4, 0, 0⟩] 0 0).vy ∧
        ((5 : ℚ) < MIN_SPEED ∨ (5 : ℚ) > MAX_SPEED → k = clamp 5 MIN_SPEED MAX_SPEED / 5) ∧
        (¬((5 : ℚ) < MIN_SPEED ∨ (5 : ℚ) > MAX_SPEED) → k = 1 ∧
          (update_boid [⟨400, 300, 3, 4, 0, 0⟩] 0 0 5).vx = (preClamp [⟨400, 300, 3, 4, 0, 0⟩] 0 0).vx ∧
          (update_boid [⟨400, 300, 3, 4, 0, 0⟩] 0 0 5).vy = (preClamp [⟨400, 300, 3, 4, 0, 0⟩] 0 0).vy)) := by
  have hpre : preClamp [⟨400, 300, 3, 4, 0, 0⟩] 0 0 = ⟨400, 300, 3, 4, 0, 0⟩ := by
    norm_num [preClamp, neighborScan, scanFrom, Accum.init, applyNeighborRules,
      applyAvoid, applyBoundary, biasDynamics, applyBias, WIDTH, HEIGHT]
  have hspec : sqrtSpec (preClamp [⟨400, 300, 3, 4, 0, 0⟩] 0 0) 5 := by
    rw [hpre]
    constructor
    · norm_num
    · norm_num [sqrtSpec]
  exact ⟨hspec, by norm_num, C2_speed_bound [⟨400, 300, 3, 4, 0, 0⟩] 0 0 5 hspec (by norm_num)⟩

theorem SeqFrom_length {dt : ℚ} {k : ℕ} {bs out : List Boid}
    (h : SeqFrom dt k bs out) : out.length = bs.length := by
  induction h with
  | done _ _ _ => rfl
  | step j bs s out hj hspec htail ih => rw [ih, List.length_set]

/-- C7: run on the full index range 0 to boids.size() with no concurrent
interference, the batch helper of the parallel file performs exactly the
same update as one call of the sequential update_boids, for every store
and every deltaTime. -/
theorem C7_batch_refines_seq (dt : ℚ) (boids out : List Boid) :
    update_boids dt boids out ↔ update_boids_batch dt 0 boids.length boids out := by
  have fwd : ∀ k bs o, SeqFrom dt k bs o → BatchFrom dt bs.length k bs o := by
    intro k bs o h
    induction h with
    | done i bs h => exact BatchFrom.done i bs h
    | step i bs s o hi hspec htail ih =>
      rw [List.length_set] at ih
      exact BatchFrom.step i bs s o hi hspec ih
  have bwd : ∀ N k bs o, BatchFrom dt N k bs o → bs.length = N → SeqFrom dt k bs o := by
    intro N k bs o h
    induction h with
    | done i bs h =>
      intro hlen
      exact SeqFrom.done i bs (hlen ▸ h)
    | step i bs s o hi hspec htail ih =>
      intro hlen
      exact SeqFrom.step i bs s o (hlen ▸ hi) hspec (ih (by rw [List.length_set, hlen]))
  exact ⟨fun h => fwd 0 boids out h, fun h => bwd boids.length 0 boids out h rfl⟩

/-! ## Bias bound machinery (claim C5) -/

theorem biasDynamics_bound (b : Boid)
    (hg : b.scout_group = 1 ∨ b.scout_group = 2)
    (h0 : 0 ≤ b.biasval) (h1 : b.biasval ≤ MAX_BIAS) :
    BIAS_INCREMENT ≤ (biasDynamics b).biasval ∧ (biasDynamics b).biasval ≤ MAX_BIAS := by
  have hINC : (0 : ℚ) < BIAS_INCREMENT := by norm_num [BIAS_INCREMENT]
  have hIM : BIAS_INCREMENT ≤ MAX_BIAS := by norm_num [BIAS_INCREMENT, MAX_BIAS]
  have hup : BIAS_INCREMENT ≤ min MAX_BIAS (b.biasval + BIAS_INCREMENT) ∧
      min MAX_BIAS (b.biasval + BIAS_INCREMENT) ≤ MAX_BIAS := by
    constructor
    · exact le_min hIM (by linarith)
    · exact min_le_left _ _
  have hdown : BIAS_INCREMENT ≤ max BIAS_INCREMENT (b.biasval - BIAS_INCREMENT) ∧
      max BIAS_INCREMENT (b.biasval - BIAS_INCREMENT) ≤ MAX_BIAS := by
    constructor
    · exact le_max_left _ _
    · exact max_le hIM (by linarith)
  rcases hg with h | h
  · rw [biasDynamics, if_pos h]
    split
    · exact hup
    · exact hdown
  · have hne : b.scout_group ≠ 1 := by rw [h]; decide
    rw [biasDynamics, if_neg hne, if_pos h]
    split
    · exact hup
    · exact hdown

theorem update_boid_biasval (boids : List Boid) (i : ℕ) (dt s : ℚ) :
    (update_boid boids i dt s).biasval =
      (biasDynamics (applyBoundary (applyAvoid dt
        (applyNeighborRules (boids.getD i default) (neighborScan boids i (boids.getD i default)))
        (neighborScan boids i (boids.getD i default))))).biasval := by
  unfold update_boid
  rw [integrate_biasval, speedClamp_biasval]
  simp only [preClamp]
  rw [applyBias_biasval]

theorem update_boid_biasval_bound (boids : List Boid) (i : ℕ) (dt s : ℚ)
    (hg : (boids.getD i default).scout_group = 1 ∨ (boids.getD i default).scout_group = 2)
    (h0 : 0 ≤ (boids.getD i default).biasval)
    (h1 : (boids.getD i default).biasval ≤ MAX_BIAS) :
    BIAS_INCREMENT ≤ (update_boid boids i dt s).biasval ∧
      (update_boid boids i dt s).biasval ≤ MAX_BIAS := by
  rw [update_boid_biasval]
  set b := boids.getD i default with hb
  set acc := neighborScan boids i b with hacc
  set z := applyBoundary (applyAvoid dt (applyNeighborRules b acc) acc) with hz
  have hzb : z.biasval = b.biasval := by
    rw [hz, applyBoundary_biasval, applyAvoid_biasval, applyNeighborRules_biasval]
  have hzg : z.scout_group = b.scout_group := by
    rw [hz, applyBoundary_group, applyAvoid_group, applyNeighborRules_group]
  exact biasDynamics_bound z (by rw [hzg]; exact hg) (by rw [hzb]; exact h0)
    (by rw [hzb]; exact h1)

theorem SeqFrom_group {dt : ℚ} {k : ℕ} {bs out : List Boid}
    (h : SeqFrom dt k bs out) (i : ℕ) :
    (out.getD i default).scout_group = (bs.getD i default).scout_group := by
  induction h with
  | done _ _ _ => rfl
  | step j bs s out hj hspec htail ih =>
    rw [ih]
    by_cases hji : j = i
    · subst hji
      rw [getD_set_self _ _ _ hj, update_boid_group]
    · rw [getD_set_ne _ _ _ _ hji]

theorem SeqFrom_bias_keep {dt : ℚ} {k : ℕ} {bs out : List Boid}
    (h : SeqFrom dt k bs out) :
    ∀ i, (bs.getD i default).scout_group = 1 ∨ (bs.getD i default).scout_group = 2 →
      BIAS_INCREMENT ≤ (bs.getD i default).biasval →
      (bs.getD i default).biasval ≤ MAX_BIAS →
      BIAS_INCREMENT ≤ (out.getD i default).biasval ∧
        (out.getD i default).biasval ≤ MAX_BIAS := by
  induction h with
  | done _ _ _ => exact fun i _ hlo hhi => ⟨hlo, hhi⟩
  | step j bs s out hj hspec htail ih =>
    intro i hg hlo hhi
    by_cases hji : j = i
    · subst hji
      have h0 : (0 : ℚ) ≤ (bs.getD j default).biasval :=
        le_trans (by norm_num [BIAS_INCREMENT]) hlo
      have hnew := update_boid_biasval_bound bs j dt s hg h0 hhi
      exact ih j (by rw [getD_set_self _ _ _ hj, update_boid_group]; exact hg)
        (by rw [getD_set_self _ _ _ hj]; exact hnew.1)
        (by rw [getD_set_self _ _ _ hj]; exact hnew.2)
    · exact ih i (by rw [getD_set_ne _ _ _ _ hji]; exact hg)
        (by rw [getD_set_ne _ _ _ _ hji]; exact hlo)
        (by rw [getD_set_ne _ _ _ _ hji]; exact hhi)

theorem SeqFrom_bias_first {dt : ℚ} {k : ℕ} {bs out : List Boid}
    (h : SeqFrom dt k bs out) :
    ∀ i, k ≤ i → i < bs.length →
      (bs.getD i default).scout_group = 1 ∨ (bs.getD i default).scout_group = 2 →
      0 ≤ (bs.getD i default).biasval →
      (bs.getD i default).biasval ≤ MAX_BIAS →
      BIAS_INCREMENT ≤ (out.getD i default).biasval ∧
        (out.getD i default).biasval ≤ MAX_BIAS := by
  induction h with
  | done j bs hlen =>
    intro i hki hi _ _ _
    omega
  | step j bs s out hj hspec htail ih =>
    intro i hki hi hg h0 h1
    by_cases hji : j = i
    · subst hji
      have hnew := update_boid_biasval_bound bs j dt s hg h0 h1
      exact SeqFrom_bias_keep htail j
        (by rw [getD_set_self _ _ _ hj, update_boid_group]; exact hg)
        (by rw [getD_set_self _ _ _ hj]; exact hnew.1)
        (by rw [getD_set_self _ _ _ hj]; exact hnew.2)
    · exact ih i (by omega) (by rw [List.length_set]; exact hi)
        (by rw [getD_set_ne _ _ _ _ hji]; exact hg)
        (by rw [getD_set_ne _ _ _ _ hji]; exact h0)
        (by rw [getD_set_ne _ _ _ _ hji]; exact h1)

theorem iter_length {n : ℕ} {bs out : List Boid}
    (h : update_boids_iter n bs out) : out.length = bs.length := by
  induction h with
  | zero _ => rfl
  | succ n dt bs mid out htick htail ih => rw [ih, SeqFrom_length htick]

theorem iter_group {n : ℕ} {bs out : List Boid}
    (h : update_boids_iter n bs out) (i : ℕ) :
    (out.getD i default).scout_group = (bs.getD i default).scout_group := by
  induction h with
  | zero _ => rfl
  | succ n dt bs mid out htick htail ih => rw [ih, SeqFrom_group htick]

theorem iter_bias_keep {n : ℕ} {bs out : List Boid}
    (h : update_boids_iter n bs out) :
    ∀ i, (bs.getD i default).scout_group = 1 ∨ (bs.getD i default).scout_group = 2 →
      BIAS_INCREMENT ≤ (bs.getD i default).biasval →
      (bs.getD i default).biasval ≤ MAX_BIAS →
      BIAS_INCREMENT ≤ (out.getD i default).biasval ∧
        (out.getD i default).biasval ≤ MAX_BIAS := by
  induction h with
  | zero _ => exact fun i _ hlo hhi => ⟨hlo, hhi⟩
  | succ n dt bs mid out htick htail ih =>
    intro i hg hlo hhi
    have hmid := SeqFrom_bias_keep htick i hg hlo hhi
    exact ih i (by rw [SeqFrom_group htick]; exact hg) hmid.1 hmid.2

/-- C5: for every agent of group 1 or 2 whose bias value starts in
[0, MAX_BIAS] (as at initialisation, where it is 0), after the first tick
and all later ticks the bias value lies in [BIAS_INCREMENT, MAX_BIAS];
and each tick moves it by the ramp of main.cpp lines 85-92: up by
BIAS_INCREMENT clamped at MAX_BIAS when the vx sign matches the group
direction, down by BIAS_INCREMENT clamped below at BIAS_INCREMENT
otherwise. -/
theorem C5_bias_bound :
    (∀ n (bs out : List Boid), update_boids_iter n bs out → 1 ≤ n →
      ∀ i, i < bs.length →
        (bs.getD i default).scout_group = 1 ∨ (bs.getD i default).scout_group = 2 →
        0 ≤ (bs.getD i default).biasval →
        (bs.getD i default).biasval ≤ MAX_BIAS →
        BIAS_INCREMENT ≤ (out.getD i default).biasval ∧
          (out.getD i default).biasval ≤ MAX_BIAS) ∧
    (∀ b : Boid,
      (b.scout_group = 1 →
        (0 < b.vx → (biasDynamics b).biasval = min MAX_BIAS (b.biasval + BIAS_INCREMENT)) ∧
        (¬ 0 < b.vx → (biasDynamics b).biasval = max BIAS_INCREMENT (b.biasval - BIAS_INCREMENT))) ∧
      (b.scout_group = 2 →
        (b.vx < 0 → (biasDynamics b).biasval = min MAX_BIAS (b.biasval + BIAS_INCREMENT)) ∧
        (¬ b.vx < 0 → (biasDynamics b).biasval = max BIAS_INCREMENT (b.biasval - BIAS_INCREMENT)))) := by
  constructor
  · intro n bs out h hn i hi hg h0 h1
    cases h with
    | zero _ => omega
    | succ m dt bs mid out htick htail =>
      have hmid := SeqFrom_bias_first htick i (Nat.zero_le i) hi hg h0 h1
      exact iter_bias_keep htail i (by rw [SeqFrom_group htick]; exact hg) hmid.1 hmid.2
  · intro b
    constructor
    · intro h
      constructor
      · intro hv
        rw [biasDynamics, if_pos h, if_pos hv]
      · intro hv
        rw [biasDynamics, if_pos h, if_neg hv]
    · intro h
      have hne : b.scout_group ≠ 1 := by rw [h]; decide
      constructor
      · intro hv
        rw [biasDynamics, if_neg hne, if_pos h, if_pos hv]
      · intro hv
        rw [biasDynamics, if_neg hne, if_pos h, if_neg hv]

/-! ## Concrete one-tick runs used by the witnesses -/

theorem wit5_pre : preClamp [⟨400, 300, 3, 0, 0, 1⟩] 0 0
    = ⟨400, 300, 299 / 100, 0, 1 / 200, 1⟩ := by
  norm_num [preClamp, neighborScan, scanFrom, Accum.init, applyNeighborRules,
    applyAvoid, applyBoundary, biasDynamics, applyBias, WIDTH, HEIGHT,
    MAX_BIAS, BIAS_INCREMENT, min_def]

theorem wit5_spec : sqrtSpec (preClamp [⟨400, 300, 3, 0, 0, 1⟩] 0 0) (299 / 100) := by
  rw [wit5_pre]
  constructor
  · norm_num
  · norm_num

theorem wit5_upd : update_boid [⟨400, 300, 3, 0, 0, 1⟩] 0 0 (299 / 100)
    = ⟨400, 300, 10, 0, 1 / 200, 1⟩ := by
  unfold update_boid
  rw [wit5_pre]
  norm_num [speedClamp, clamp, integrate, MIN_SPEED, MAX_SPEED, min_def, max_def]

theorem wit5_tick : update_boids 0 [⟨400, 300, 3, 0, 0, 1⟩] [⟨400, 300, 10, 0, 1 / 200, 1⟩] := by
  apply SeqFrom.step 0 _ (299 / 100)
  · norm_num
  · exact wit5_spec
  · rw [wit5_upd]
    exact SeqFrom.done 1 _ (by norm_num)

theorem wit5_iter : update_boids_iter 1 [⟨400, 300, 3, 0, 0, 1⟩] [⟨400, 300, 10, 0, 1 / 200, 1⟩] :=
  update_boids_iter.succ 0 0 _ _ _ wit5_tick (update_boids_iter.zero _)

theorem wit8_pre : preClamp [⟨400, 300, 3, 4, 0, 0⟩] 0 0 = ⟨400, 300, 3, 4, 0, 0⟩ := by
  norm_num [preClamp, neighborScan, scanFrom, Accum.init, applyNeighborRules,
    applyAvoid, applyBoundary, biasDynamics, applyBias, WIDTH, HEIGHT]

theorem wit8_spec : sqrtSpec (preClamp [⟨400, 300, 3, 4, 0, 0⟩] 0 0) 5 := by
  rw [wit8_pre]
  constructor
  · norm_num
  · norm_num

theorem wit8_upd : update_boid [⟨400, 300, 3, 4, 0, 0⟩] 0 0 5 = ⟨400, 300, 6, 8, 0, 0⟩ := by
  unfold update_boid
  rw [wit8_pre]
  norm_num [speedClamp, clamp, integrate, MIN_SPEED, MAX_SPEED, min_def, max_def]

theorem wit8_tick : update_boids 0 [⟨400, 300, 3, 4, 0, 0⟩] [⟨400, 300, 6, 8, 0, 0⟩] := by
  apply SeqFrom.step 0 _ 5
  · norm_num
  · exact wit8_spec
  · rw [wit8_upd]
    exact SeqFrom.done 1 _ (by norm_num)

theorem wit8_iter : update_boids_iter 1 [⟨400, 300, 3, 4, 0, 0⟩] [⟨400, 300, 6, 8, 0, 0⟩] :=
  update_boids_iter.succ 0 0 _ _ _ wit8_tick (update_boids_iter.zero _)

/-- C5 witness: a single group 1 agent with zero bias, one tick with
deltaTime 0, bias value afterwards is exactly BIAS_INCREMENT. -/
theorem C5_bias_bound_witness :
    BIAS_INCREMENT ≤ (([⟨400, 300, 10, 0, 1 / 200, 1⟩] : List Boid).getD 0 default).biasval ∧
    (([⟨400, 300, 10, 0, 1 / 200, 1⟩] : List Boid).getD 0 default).biasval ≤ MAX_BIAS :=
  C5_bias_bound.1 1 [⟨400, 300, 3, 0, 0, 1⟩] [⟨400, 300, 10, 0, 1 / 200, 1⟩] wit5_iter
    (by norm_num) 0 (by norm_num) (Or.inl rfl) (le_refl 0)
    (show (0 : ℚ) ≤ MAX_BIAS by norm_num [MAX_BIAS])

/-! ## Frame machinery for group 0 agents (claim C8) -/

theorem biasDynamics_group0 (b : Boid) (h : b.scout_group = 0) : biasDynamics b = b := by
  have h1 : b.scout_group ≠ 1 := by rw [h]; decide
  have h2 : b.scout_group ≠ 2 := by rw [h]; decide
  rw [biasDynamics, if_neg h1, if_neg h2]

theorem applyBias_group0 (b : Boid) (h : b.scout_group = 0) : applyBias b = b := by
  have h1 : b.scout_group ≠ 1 := by rw [h]; decide
  have h2 : b.scout_group ≠ 2 := by rw [h]; decide
  rw [applyBias, if_neg h1, if_neg h2]

theorem update_boid_biasval_group0 (boids : List Boid) (i : ℕ) (dt s : ℚ)
    (hg : (boids.getD i default).scout_group = 0) :
    (update_boid boids i dt s).biasval = (boids.getD i default).biasval := by
  rw [update_boid_biasval]
  set b := boids.getD i default with hb
  set acc := neighborScan boids i b with hacc
  set z := applyBoundary (applyAvoid dt (applyNeighborRules b acc) acc) with hz
  have hzg : z.scout_group = 0 := by
    rw [hz, applyBoundary_group, applyAvoid_group, applyNeighborRules_group]
    exact hg
  rw [biasDynamics_group0 z hzg, hz, applyBoundary_biasval, applyAvoid_biasval,
    applyNeighborRules_biasval]

theorem SeqFrom_biasval_group0 {dt : ℚ} {k : ℕ} {bs out : List Boid}
    (h : SeqFrom dt k bs out) :
    ∀ i, (bs.getD i default).scout_group = 0 →
      (out.getD i default).biasval = (bs.getD i default).biasval := by
  induction h with
  | done _ _ _ => exact fun i _ => rfl
  | step j bs s out hj hspec htail ih =>
    intro i hg
    by_cases hji : j = i
    · subst hji
      rw [ih j (by rw [getD_set_self _ _ _ hj, update_boid_group]; exact hg),
        getD_set_self _ _ _ hj, update_boid_biasval_group0 bs j dt s hg]
    · rw [ih i (by rw [getD_set_ne _ _ _ _ hji]; exact hg), getD_set_ne _ _ _ _ hji]

theorem iter_biasval_group0 {n : ℕ} {bs out : List Boid}
    (h : update_boids_iter n bs out) :
    ∀ i, (bs.getD i default).scout_group = 0 →
      (out.getD i default).biasval = (bs.getD i default).biasval := by
  induction h with
  | zero _ => exact fun i _ => rfl
  | succ n dt bs mid out htick htail ih =>
    intro i hg
    rw [ih i (by rw [SeqFrom_group htick]; exact hg), SeqFrom_biasval_group0 htick i hg]

theorem scanFrom_congr (b1 b2 : Boid) (hx : b1.x = b2.x) (hy : b1.y = b2.y) (i : ℕ) :
    ∀ (l1 l2 : List Boid) (j : ℕ) (acc : Accum), l1.length = l2.length →
      (∀ k, j + k ≠ i → l1.getD k default = l2.getD k default) →
      scanFrom b1 i j l1 acc = scanFrom b2 i j l2 acc := by
  intro l1
  induction l1 with
  | nil =>
    intro l2 j acc hlen _
    cases l2 with
    | nil => rfl
    | cons c t => simp at hlen
  | cons a t ih =>
    intro l2 j acc hlen hagree
    cases l2 with
    | nil => simp at hlen
    | cons c t2 =>
      have hlen2 : t.length = t2.length := by simpa using hlen
      have htail : ∀ k, (j + 1) + k ≠ i → t.getD k default = t2.getD k default := by
        intro k hk
        have := hagree (k + 1) (by omega)
        simpa [List.getD_cons_succ] using this
      rw [scanFrom, scanFrom]
      by_cases hji : j = i
      · rw [if_pos hji, if_pos hji]
        exact ih t2 (j + 1) acc hlen2 htail
      · have hhead : a = c := by
          have := hagree 0 (by omega)
          simpa [List.getD_cons_zero] using this
        rw [if_neg hji, if_neg hji, hhead]
        have hother : scanOther b1 acc c = scanOther b2 acc c := by
          rw [scanOther, scanOther, hx, hy]
        rw [hother]
        exact ih t2 (j + 1) (scanOther b2 acc c) hlen2 htail

theorem neighborScan_set_self (bs : List Boid) (i : ℕ) (u : Boid) (b1 b2 : Boid)
    (hx : b1.x = b2.x) (hy : b1.y = b2.y) :
    neighborScan (bs.set i u) i b1 = neighborScan bs i b2 := by
  apply scanFrom_congr b1 b2 hx hy i (bs.set i u) bs 0 Accum.init (by rw [List.length_set])
  intro k hk
  exact getD_set_ne bs i k u (by omega)

/-- Overwrite of the stored bias value of one boid, used to express that
the update never reads it for group 0 agents. -/
def setBiasval (c : ℚ) (b : Boid) : Boid := { b with biasval := c }

theorem applyNeighborRules_biasc (b : Boid) (c : ℚ) (A : Accum) :
    applyNeighborRules (setBiasval c b) A = setBiasval c (applyNeighborRules b A) := by
  rw [applyNeighborRules, applyNeighborRules]
  split <;> rfl

theorem applyAvoid_biasc (dt : ℚ) (b : Boid) (c : ℚ) (A : Accum) :
    applyAvoid dt (setBiasval c b) A = setBiasval c (applyAvoid dt b A) := rfl

theorem applyBoundary_biasc (b : Boid) (c : ℚ) :
    applyBoundary (setBiasval c b) = setBiasval c (applyBoundary b) := rfl

theorem speedClamp_biasc (s : ℚ) (b : Boid) (c : ℚ) :
    speedClamp s (setBiasval c b) = setBiasval c (speedClamp s b) := by
  rw [speedClamp, speedClamp]
  split <;> rfl

theorem integrate_biasc (dt : ℚ) (b : Boid) (c : ℚ) :
    integrate dt (setBiasval c b) = setBiasval c (integrate dt b) := rfl

theorem setBiasval_group (c : ℚ) (b : Boid) : (setBiasval c b).scout_group = b.scout_group := rfl

theorem preClamp_unfold (l : List Boid) (j : ℕ) (dt : ℚ) :
    preClamp l j dt = applyBias (biasDynamics (applyBoundary (applyAvoid dt
      (applyNeighborRules (l.getD j default) (neighborScan l j (l.getD j default)))
      (neighborScan l j (l.getD j default))))) := rfl

/-- C8: the tick never modifies the group field of any agent; for a group
0 (None) agent the bias value is never written (it stays at its initial
value, 0 at initialisation) and never read (overwriting it before the
update changes nothing but the stored bias value itself), and the bias
application step is the identity on group 0 agents. -/
theorem C8_group_frame :
    (∀ n (bs out : List Boid), update_boids_iter n bs out → ∀ i,
      (out.getD i default).scout_group = (bs.getD i default).scout_group ∧
      ((bs.getD i default).scout_group = 0 →
        (out.getD i default).biasval = (bs.getD i default).biasval)) ∧
    (∀ b : Boid, b.scout_group = 0 → applyBias b = b) ∧
    (∀ (bs : List Boid) (i : ℕ) (dt s c : ℚ), i < bs.length →
      (bs.getD i default).scout_group = 0 →
      update_boid (bs.set i (setBiasval c (bs.getD i default))) i dt s =
        setBiasval c (update_boid bs i dt s)) := by
  refine ⟨?_, applyBias_group0, ?_⟩
  · intro n bs out h i
    exact ⟨iter_group h i, iter_biasval_group0 h i⟩
  · intro bs i dt s c hi hg
    set b := bs.getD i default with hb
    have hgot : (bs.set i (setBiasval c b)).getD i default = setBiasval c b :=
      getD_set_self bs i _ hi
    have hscan : neighborScan (bs.set i (setBiasval c b)) i (setBiasval c b)
        = neighborScan bs i b :=
      neighborScan_set_self bs i (setBiasval c b) (setBiasval c b) b rfl rfl
    have hpre : preClamp (bs.set i (setBiasval c b)) i dt
        = setBiasval c (preClamp bs i dt) := by
      rw [preClamp_unfold, preClamp_unfold, hgot, hscan, ← hb]
      set A := neighborScan bs i b with hA
      rw [applyNeighborRules_biasc, applyAvoid_biasc, applyBoundary_biasc]
      set z := applyBoundary (applyAvoid dt (applyNeighborRules b A) A) with hz
      have hzg : z.scout_group = 0 := by
        rw [hz, applyBoundary_group, applyAvoid_group, applyNeighborRules_group]
        exact hg
      have hzcg : (setBiasval c z).scout_group = 0 := by rw [setBiasval_group]; exact hzg
      rw [biasDynamics_group0 _ hzcg, biasDynamics_group0 _ hzg,
        applyBias_group0 _ hzcg, applyBias_group0 _ hzg]
    show integrate dt (speedClamp s (preClamp (bs.set i (setBiasval c b)) i dt))
        = setBiasval c (integrate dt (speedClamp s (preClamp bs i dt)))
    rw [hpre, speedClamp_biasc, integrate_biasc]

/-- C8 witness: the frame statement applied to concrete group 0 agents. -/
theorem C8_group_frame_witness :
    ((([⟨400, 300, 6, 8, 0, 0⟩] : List Boid).getD 0 default).scout_group
        = (([⟨400, 300, 3, 4, 0, 0⟩] : List Boid).getD 0 default).scout_group ∧
      (([⟨400, 300, 6, 8, 0, 0⟩] : List Boid).getD 0 default).biasval
        = (([⟨400, 300, 3, 4, 0, 0⟩] : List Boid).getD 0 default).biasval) ∧
    applyBias ⟨1, 2, 3, 4, 5, 0⟩ = ⟨1, 2, 3, 4, 5, 0⟩ ∧
    update_boid (([⟨400, 300, 3, 4, 0, 0⟩] : List Boid).set 0
        (setBiasval 7 (([⟨400, 300, 3, 4, 0, 0⟩] : List Boid).getD 0 default))) 0 0 5 =
      setBiasval 7 (update_boid [⟨400, 300, 3, 4, 0, 0⟩] 0 0 5) := by
  have h := C8_group_frame
  have h1 := h.1 1 [⟨400, 300, 3, 4, 0, 0⟩] [⟨400, 300, 6, 8, 0, 0⟩] wit8_iter 0
  exact ⟨⟨h1.1, h1.2 rfl⟩, h.2.1 ⟨1, 2, 3, 4, 5, 0⟩ rfl,
    h.2.2 [⟨400, 300, 3, 4, 0, 0⟩] 0 0 5 7 (by norm_num) rfl⟩

/-! ## Scan characterisation machinery (claim C6) -/

/-- Fieldwise sum of two accumulator records. -/
def Accum.plus (a b : Accum) : Accum :=
  ⟨a.xpos_avg + b.xpos_avg, a.ypos_avg + b.ypos_avg, a.xvel_avg + b.xvel_avg,
   a.yvel_avg + b.yvel_avg, a.neighboring_boids + b.neighboring_boids,
   a.close_dx + b.close_dx, a.close_dy + b.close_dy⟩

theorem Accum.plus_init_left (a : Accum) : Accum.plus Accum.init a = a := by
  cases a
  simp [Accum.plus, Accum.init]

theorem Accum.plus_init_right (a : Accum) : Accum.plus a Accum.init = a := by
  cases a
  simp [Accum.plus, Accum.init]

theorem Accum.plus_assoc (a b c : Accum) :
    Accum.plus (Accum.plus a b) c = Accum.plus a (Accum.plus b c) := by
  cases a; cases b; cases c
  simp [Accum.plus, add_assoc]

theorem scanOther_classify (boid o : Boid) :
    scanOther boid Accum.init o =
      if isClose boid o then
        { Accum.init with close_dx := boid.x - o.x, close_dy := boid.y - o.y }
      else if isVisible boid o then
        { Accum.init with xpos_avg := o.x, ypos_avg := o.y,
                          xvel_avg := o.vx, yvel_avg := o.vy, neighboring_boids := 1 }
      else Accum.init := by
  rw [scanOther]
  by_cases h1 : |boid.x - o.x| < VISUAL_RANGE ∧ |boid.y - o.y| < VISUAL_RANGE
  · rw [if_pos h1]
    by_cases h2 : (boid.x - o.x) * (boid.x - o.x) + (boid.y - o.y) * (boid.y - o.y)
        < PROTECTED_RANGE * PROTECTED_RANGE
    · have hc : isClose boid o = true := by
        simp [isClose, inRect, dist2, h1.1, h1.2, h2]
      rw [if_pos h2, if_pos hc]
      simp [Accum.init]
    · have hcf : isClose boid o = false := by
        simp [isClose, inRect, dist2, h2]
      rw [if_neg h2, if_neg (by simp [hcf] : ¬ isClose boid o = true)]
      by_cases h3 : (boid.x - o.x) * (boid.x - o.x) + (boid.y - o.y) * (boid.y - o.y)
          < VISUAL_RANGE * VISUAL_RANGE
      · have hv : isVisible boid o = true := by
          simp [isVisible, inRect, dist2, h1.1, h1.2, h2, h3]
        rw [if_pos h3, if_pos hv]
        simp [Accum.init]
      · have hvf : isVisible boid o = false := by
          simp [isVisible, inRect, dist2, h3]
        rw [if_neg h3, if_neg (by simp [hvf] : ¬ isVisible boid o = true)]
  · rw [if_neg h1]
    have hp : inRect boid o = false := by
      simp only [inRect]
      rcases not_and_or.mp h1 with h | h <;> simp [h]
    have hcf : ¬ isClose boid o = true := by simp [isClose, hp]
    have hvf : ¬ isVisible boid o = true := by simp [isVisible, hp]
    rw [if_neg hcf, if_neg hvf]

theorem scanOther_plus (boid : Boid) (acc : Accum) (o : Boid) :
    scanOther boid acc o = Accum.plus acc (scanOther boid Accum.init o) := by
  rw [scanOther, scanOther]
  by_cases h1 : |boid.x - o.x| < VISUAL_RANGE ∧ |boid.y - o.y| < VISUAL_RANGE
  · rw [if_pos h1, if_pos h1]
    by_cases h2 : (boid.x - o.x) * (boid.x - o.x) + (boid.y - o.y) * (boid.y - o.y)
        < PROTECTED_RANGE * PROTECTED_RANGE
    · rw [if_pos h2, if_pos h2]
      cases acc
      simp [Accum.plus, Accum.init]
    · rw [if_neg h2, if_neg h2]
      by_cases h3 : (boid.x - o.x) * (boid.x - o.x) + (boid.y - o.y) * (boid.y - o.y)
          < VISUAL_RANGE * VISUAL_RANGE
      · rw [if_pos h3, if_pos h3]
        cases acc
        simp [Accum.plus, Accum.init]
      · rw [if_neg h3, if_neg h3]
        exact (Accum.plus_init_right acc).symm
  · rw [if_neg h1, if_neg h1]
    exact (Accum.plus_init_right acc).symm

theorem specOver_nil (boid : Boid) (i : ℕ) : specOver boid i [] = Accum.init := rfl

theorem specOver_cons (boid : Boid) (i j : ℕ) (o : Boid) (t : List (ℕ × Boid)) :
    specOver boid i ((j, o) :: t) =
      if j = i then specOver boid i t
      else Accum.plus (scanOther boid Accum.init o) (specOver boid i t) := by
  by_cases hji : j = i
  · rw [if_pos hji]
    simp only [specOver, List.filter_cons]
    simp [hji]
  · rw [if_neg hji, scanOther_classify]
    simp only [specOver, List.filter_cons]
    have hd : (decide ((j, o).1 ≠ i)) = true := by simp [hji]
    rw [hd]
    simp only [if_true, List.map_cons]
    by_cases hc : isClose boid o = true
    · have hv : isVisible boid o = false := by
        simp only [isClose, Bool.and_eq_true] at hc
        simp [isVisible, hc.2]
      simp [hc, hv, Accum.plus, Accum.init]
    · by_cases hv : isVisible boid o = true
      · simp [hc, hv, Accum.plus, Accum.init, add_comm]
      · simp [hc, hv, Accum.plus, Accum.init]

theorem scanFrom_spec (boid : Boid) (i : ℕ) :
    ∀ (l : List Boid) (j : ℕ) (acc : Accum),
      scanFrom boid i j l acc = Accum.plus acc (specOver boid i (l.enumFrom j)) := by
  intro l
  induction l with
  | nil =>
    intro j acc
    rw [scanFrom]
    exact (Accum.plus_init_right acc).symm
  | cons o t ih =>
    intro j acc
    rw [scanFrom]
    have henum : (o :: t).enumFrom j = (j, o) :: t.enumFrom (j + 1) := rfl
    rw [henum, specOver_cons]
    by_cases hji : j = i
    · rw [if_pos hji, if_pos hji, ih]
    · rw [if_neg hji, if_neg hji, ih, scanOther_plus, Accum.plus_assoc]

/-- C6: the neighbor scan of the code equals the specification-side
accumulator: every other agent (self excluded by index) is considered,
the rectangular pre-filter comes first, pre-filtered agents strictly
inside the protected disc feed the separation sums (close_dx, close_dy)
with (dx, dy), agents outside it but strictly inside the visual disc feed
the position and velocity sums and the neighbor counter, and all the rest
contribute nothing. -/
theorem C6_scan_characterisation (boids : List Boid) (i : ℕ) (boid : Boid) :
    neighborScan boids i boid = specAccum boids i boid := by
  rw [neighborScan, specAccum, scanFrom_spec, Accum.plus_init_left]
  rfl

/-! ## Concrete two-boid race (claim C10)

Two group 0 boids at (100, 100) and (110, 100), both at rest, store of
size 2, two workers, deltaTime 1.  The scheduler gives batch 0 = [0] and
batch 1 = [1].  Under the order 0 then 1 (which is also the sequential
order) worker 1 sees boid 0 already moved; under the order 1 then 0 it
sees the settled previous-tick value, and the final stores differ. -/

def wb0 : Boid := ⟨100, 100, 0, 0, 0, 0⟩
def wb1 : Boid := ⟨110, 100, 0, 0, 0, 0⟩
def wa0 : Boid := ⟨90, 100, -10, 0, 0, 0⟩
def wa1 : Boid := ⟨100, 100, -10, 0, 0, 0⟩
def wc1 : Boid := ⟨120, 100, 10, 0, 0, 0⟩
def wc0 : Boid := ⟨110, 100, 10, 0, 0, 0⟩

theorem wit10_preA1 : preClamp [wb0, wb1] 0 1 = ⟨100, 100, -(1 / 2), 0, 0, 0⟩ := by
  norm_num [wb0, wb1, preClamp, neighborScan, scanFrom, scanOther, Accum.init,
    applyNeighborRules, applyAvoid, applyBoundary, biasDynamics, applyBias,
    VISUAL_RANGE, PROTECTED_RANGE, CENTERING_FACTOR, AVOID_FACTOR,
    MATCHING_FACTOR, TURN_FACTOR, WIDTH, HEIGHT]

theorem wit10_specA1 : sqrtSpec (preClamp [wb0, wb1] 0 1) (1 / 2) := by
  rw [wit10_preA1]
  constructor
  · norm_num
  · norm_num

theorem wit10_updA1 : update_boid [wb0, wb1] 0 1 (1 / 2) = wa0 := by
  unfold update_boid
  rw [wit10_preA1]
  norm_num [wa0, speedClamp, clamp, integrate, MIN_SPEED, MAX_SPEED, min_def, max_def]

theorem wit10_preA2 : preClamp [wa0, wb1] 1 1 = ⟨110, 100, -(3 / 5), 0, 0, 0⟩ := by
  norm_num [wa0, wb1, preClamp, neighborScan, scanFrom, scanOther, Accum.init,
    applyNeighborRules, applyAvoid, applyBoundary, biasDynamics, applyBias,
    VISUAL_RANGE, PROTECTED_RANGE, CENTERING_FACTOR, AVOID_FACTOR,
    MATCHING_FACTOR, TURN_FACTOR, WIDTH, HEIGHT]

theorem wit10_specA2 : sqrtSpec (preClamp [wa0, wb1] 1 1) (3 / 5) := by
  rw [wit10_preA2]
  constructor
  · norm_num
  · norm_num

theorem wit10_updA2 : update_boid [wa0, wb1] 1 1 (3 / 5) = wa1 := by
  unfold update_boid
  rw [wit10_preA2]
  norm_num [wa1, speedClamp, clamp, integrate, MIN_SPEED, MAX_SPEED, min_def, max_def]

theorem wit10_preB1 : preClamp [wb0, wb1] 1 1 = ⟨110, 100, 1 / 2, 0, 0, 0⟩ := by
  norm_num [wb0, wb1, preClamp, neighborScan, scanFrom, scanOther, Accum.init,
    applyNeighborRules, applyAvoid, applyBoundary, biasDynamics, applyBias,
    VISUAL_RANGE, PROTECTED_RANGE, CENTERING_FACTOR, AVOID_FACTOR,
    MATCHING_FACTOR, TURN_FACTOR, WIDTH, HEIGHT]

theorem wit10_specB1 : sqrtSpec (preClamp [wb0, wb1] 1 1) (1 / 2) := by
  rw [wit10_preB1]
  constructor
  · norm_num
  · norm_num

theorem wit10_updB1 : update_boid [wb0, wb1] 1 1 (1 / 2) = wc1 := by
  unfold update_boid
  rw [wit10_preB1]
  norm_num [wc1, speedClamp, clamp, integrate, MIN_SPEED, MAX_SPEED, min_def, max_def]

theorem wit10_preB2 : preClamp [wb0, wc1] 0 1 = ⟨100, 100, 3 / 5, 0, 0, 0⟩ := by
  norm_num [wb0, wc1, preClamp, neighborScan, scanFrom, scanOther, Accum.init,
    applyNeighborRules, applyAvoid, applyBoundary, biasDynamics, applyBias,
    VISUAL_RANGE, PROTECTED_RANGE, CENTERING_FACTOR, AVOID_FACTOR,
    MATCHING_FACTOR, TURN_FACTOR, WIDTH, HEIGHT]

theorem wit10_specB2 : sqrtSpec (preClamp [wb0, wc1] 0 1) (3 / 5) := by
  rw [wit10_preB2]
  constructor
  · norm_num
  · norm_num

theorem wit10_updB2 : update_boid [wb0, wc1] 0 1 (3 / 5) = wc0 := by
  unfold update_boid
  rw [wit10_preB2]
  norm_num [wc0, speedClamp, clamp, integrate, MIN_SPEED, MAX_SPEED, min_def, max_def]

theorem wit10_run1 : OrderRun 1 [0, 1] [wb0, wb1] [wa0, wa1] := by
  apply OrderRun.cons 0 [1] [wb0, wb1] (1 / 2) [wa0, wa1] (by norm_num) wit10_specA1
  rw [wit10_updA1]
  show OrderRun 1 [1] [wa0, wb1] [wa0, wa1]
  apply OrderRun.cons 1 [] [wa0, wb1] (3 / 5) [wa0, wa1] (by norm_num) wit10_specA2
  rw [wit10_updA2]
  show OrderRun 1 [] [wa0, wa1] [wa0, wa1]
  exact OrderRun.nil [wa0, wa1]

theorem wit10_run2 : OrderRun 1 [1, 0] [wb0, wb1] [wc0, wc1] := by
  apply OrderRun.cons 1 [0] [wb0, wb1] (1 / 2) [wc0, wc1] (by norm_num) wit10_specB1
  rw [wit10_updB1]
  show OrderRun 1 [0] [wb0, wc1] [wc0, wc1]
  apply OrderRun.cons 0 [] [wb0, wc1] (3 / 5) [wc0, wc1] (by norm_num) wit10_specB2
  rw [wit10_updB2]
  show OrderRun 1 [] [wc0, wc1] [wc0, wc1]
  exact OrderRun.nil [wc0, wc1]

theorem wit10_seq : update_boids 1 [wb0, wb1] [wa0, wa1] := by
  apply SeqFrom.step 0 [wb0, wb1] (1 / 2) [wa0, wa1] (by norm_num) wit10_specA1
  rw [wit10_updA1]
  show SeqFrom 1 1 [wa0, wb1] [wa0, wa1]
  apply SeqFrom.step 1 [wa0, wb1] (3 / 5) [wa0, wa1] (by norm_num) wit10_specA2
  rw [wit10_updA2]
  show SeqFrom 1 2 [wa0, wa1] [wa0, wa1]
  exact SeqFrom.done 2 [wa0, wa1] (by norm_num)

/-- C10: with the scheduler partition for two agents and two workers, two
valid whole-boid interleavings of the batches, run from the same store
with the same deltaTime, end in different stores, and one of them differs
from the sequential update_boids result: the per-tick parallel behaviour
is not equivalent to the sequential reference and is not reproducible
across scheduling decisions, because a worker can observe a neighbor
owned by the other worker either in its settled previous-tick state or
already updated. -/
theorem C10_race_nondeterminism :
    ∃ (dt : ℚ) (boids r1 r2 rseq : List Boid) (o1 o2 : List ℕ),
      boids.length = 2 ∧
      Interleave (batchIdxs 2 2 0) (batchIdxs 2 2 1) o1 ∧
      Interleave (batchIdxs 2 2 0) (batchIdxs 2 2 1) o2 ∧
      OrderRun dt o1 boids r1 ∧
      OrderRun dt o2 boids r2 ∧
      r1 ≠ r2 ∧
      update_boids dt boids rseq ∧
      r2 ≠ rseq := by
  have hb0 : batchIdxs 2 2 0 = [0] := by decide
  have hb1 : batchIdxs 2 2 1 = [1] := by decide
  refine ⟨1, [wb0, wb1], [wa0, wa1], [wc0, wc1], [wa0, wa1], [0, 1], [1, 0],
    rfl, ?_, ?_, wit10_run1, wit10_run2, ?_, wit10_seq, ?_⟩
  · rw [hb0, hb1]
    exact Interleave.left 0 [] [1] [1] (Interleave.right 1 [] [] [] Interleave.nil)
  · rw [hb0, hb1]
    exact Interleave.right 1 [0] [] [0] (Interleave.left 0 [] [] [] Interleave.nil)
  · intro h
    rw [List.cons.injEq] at h
    have hx := congrArg Boid.x h.1
    rw [wa0, wc0] at hx
    norm_num at hx
  · intro h
    rw [List.cons.injEq] at h
    have hx := congrArg Boid.x h.1
    rw [wc0, wa0] at hx
    norm_num at hx

/-! ## Non-finite propagation lemmas (claim C1) -/

@[simp] theorem fadd_none_left (b : FP) : fadd none b = none := rfl
@[simp] theorem fadd_none_right (a : FP) : fadd a none = none := by cases a <;> rfl
@[simp] theorem fadd_some (a b : ℚ) : fadd (some a) (some b) = some (a + b) := rfl
@[simp] theorem fsub_none_left (b : FP) : fsub none b = none := rfl
@[simp] theorem fsub_none_right (a : FP) : fsub a none = none := by cases a <;> rfl
@[simp] theorem fmul_none_left (b : FP) : fmul none b = none := rfl
@[simp] theorem fmul_none_right (a : FP) : fmul a none = none := by cases a <;> rfl
@[simp] theorem fdiv_none_left (b : FP) : fdiv none b = none := rfl
@[simp] theorem fdiv_zero_zero : fdiv (some 0) (some 0) = none := rfl
@[simp] theorem fabs_none : fabs none = none := rfl
@[simp] theorem flt_none_left (b : FP) : flt none b = false := rfl
@[simp] theorem flt_none_right (a : FP) : flt a none = false := by cases a <;> rfl
@[simp] theorem flt_some (a b : ℚ) : flt (some a) (some b) = decide (a < b) := rfl

theorem scanOtherF_nanx (boid : BoidF) (hx : boid.x = none) (acc : AccumF) (o : BoidF) :
    scanOtherF boid acc o = acc := by
  simp [scanOtherF, hx]

theorem scanFromF_nanx (boid : BoidF) (hx : boid.x = none) (i : ℕ) :
    ∀ (l : List BoidF) (j : ℕ) (acc : AccumF), scanFromF boid i j l acc = acc := by
  intro l
  induction l with
  | nil => intro j acc; rfl
  | cons o t ih =>
    intro j acc
    rw [scanFromF]
    by_cases hji : j = i
    · rw [if_pos hji, ih]
    · rw [if_neg hji, scanOtherF_nanx boid hx, ih]

theorem neighborScanF_nanx (bs : List BoidF) (i : ℕ) (boid : BoidF) (hx : boid.x = none) :
    neighborScanF bs i boid = AccumF.init :=
  scanFromF_nanx boid hx i bs 0 AccumF.init

theorem applyNeighborRulesF_init (b : BoidF) : applyNeighborRulesF b AccumF.init = b := by
  rw [applyNeighborRulesF]
  norm_num [AccumF.init]

theorem applyBoundaryF_nan (b : BoidF) (hx : b.x = none) (hy : b.y = none) :
    applyBoundaryF b = b := by
  cases b with
  | mk x y vx vy bv g =>
    simp only at hx hy
    subst hx
    subst hy
    simp [applyBoundaryF]

theorem biasDynamicsF_x (b : BoidF) : (biasDynamicsF b).x = b.x := by
  rw [biasDynamicsF]; split_ifs <;> rfl
theorem biasDynamicsF_y (b : BoidF) : (biasDynamicsF b).y = b.y := by
  rw [biasDynamicsF]; split_ifs <;> rfl
theorem biasDynamicsF_vx (b : BoidF) : (biasDynamicsF b).vx = b.vx := by
  rw [biasDynamicsF]; split_ifs <;> rfl
theorem biasDynamicsF_vy (b : BoidF) : (biasDynamicsF b).vy = b.vy := by
  rw [biasDynamicsF]; split_ifs <;> rfl

theorem applyBiasF_x (b : BoidF) : (applyBiasF b).x = b.x := by
  rw [applyBiasF]; split_ifs <;> rfl
theorem applyBiasF_y (b : BoidF) : (applyBiasF b).y = b.y := by
  rw [applyBiasF]; split_ifs <;> rfl
theorem applyBiasF_vy (b : BoidF) : (applyBiasF b).vy = b.vy := by
  rw [applyBiasF]; split_ifs <;> rfl
theorem applyBiasF_vx_nan (b : BoidF) (h : b.vx = none) : (applyBiasF b).vx = none := by
  rw [applyBiasF]; split_ifs <;> simp [h]

theorem preClampF_unfold (l : List BoidF) (j : ℕ) (dt : ℚ) :
    preClampF l j dt = applyBiasF (biasDynamicsF (applyBoundaryF (applyAvoidF dt
      (applyNeighborRulesF (l.getD j default) (neighborScanF l j (l.getD j default)))
      (neighborScanF l j (l.getD j default))))) := rfl

theorem preClampF_nan (bs : List BoidF) (i : ℕ) (dt : ℚ)
    (hn : isNaNBoid (bs.getD i default)) :
    (preClampF bs i dt).x = none ∧ (preClampF bs i dt).y = none ∧
    (preClampF bs i dt).vx = none ∧ (preClampF bs i dt).vy = none := by
  obtain ⟨hx, hy, hvx, hvy⟩ := hn
  rw [preClampF_unfold, neighborScanF_nanx bs i _ hx, applyNeighborRulesF_init]
  set z2 := applyAvoidF dt (bs.getD i default) AccumF.init with hz2
  have h2 : z2.x = none ∧ z2.y = none ∧ z2.vx = none ∧ z2.vy = none := by
    refine ⟨hx, hy, ?_, ?_⟩
    · show fadd (bs.getD i default).vx
        (fmul (fmul AccumF.init.close_dx (some AVOID_FACTOR)) (some dt)) = none
      rw [hvx, fadd_none_left]
    · show fadd (bs.getD i default).vy
        (fmul (fmul AccumF.init.close_dy (some AVOID_FACTOR)) (some dt)) = none
      rw [hvy, fadd_none_left]
  rw [applyBoundaryF_nan z2 h2.1 h2.2.1]
  refine ⟨?_, ?_, ?_, ?_⟩
  · rw [applyBiasF_x, biasDynamicsF_x]; exact h2.1
  · rw [applyBiasF_y, biasDynamicsF_y]; exact h2.2.1
  · exact applyBiasF_vx_nan _ (by rw [biasDynamicsF_vx]; exact h2.2.2.1)
  · rw [applyBiasF_vy, biasDynamicsF_vy]; exact h2.2.2.2

theorem sqrtSpecF_nanarg (b : BoidF) (s : FP) (hvx : b.vx = none)
    (h : sqrtSpecF b s) : s = none := by
  unfold sqrtSpecF at h
  rw [hvx] at h
  cases s with
  | none => rfl
  | some q => exact False.elim h

theorem sqrtSpecF_zero (b : BoidF) (s : FP) (hvx : b.vx = some 0) (hvy : b.vy = some 0)
    (h : sqrtSpecF b s) : s = some 0 := by
  unfold sqrtSpecF at h
  rw [hvx, hvy] at h
  cases s with
  | none => exact False.elim h
  | some q =>
    have h2 : 0 ≤ q ∧ q ^ 2 = 0 * 0 + 0 * 0 := h
    have hq : q ^ 2 = 0 := by rw [h2.2]; ring
    have : q = 0 := pow_eq_zero_iff (by norm_num : (2 : ℕ) ≠ 0) |>.mp hq
    rw [this]

theorem clampCondF_none : clampCondF none = false := by
  simp [clampCondF]

theorem speedClampF_none (b : BoidF) : speedClampF none b = b := by
  rw [speedClampF, clampCondF_none]
  rfl

theorem update_boidF_nan (bs : List BoidF) (i : ℕ) (dt : ℚ) (s : FP)
    (hn : isNaNBoid (bs.getD i default)) (hs : sqrtSpecF (preClampF bs i dt) s) :
    isNaNBoid (update_boidF bs i dt s) := by
  obtain ⟨hpx, hpy, hpvx, hpvy⟩ := preClampF_nan bs i dt hn
  have hsn : s = none := sqrtSpecF_nanarg _ s hpvx hs
  have hclamp : speedClampF s (preClampF bs i dt) = preClampF bs i dt := by
    rw [hsn, speedClampF_none]
  refine ⟨?_, ?_, ?_, ?_⟩ <;>
    simp [update_boidF, integrateF, hclamp, hpx, hpy, hpvx, hpvy]

theorem SeqFromF_length {dt : ℚ} {k : ℕ} {bs out : List BoidF}
    (h : SeqFromF dt k bs out) : out.length = bs.length := by
  induction h with
  | done _ _ _ => rfl
  | step j bs s out hj hspec htail ih => rw [ih, List.length_set]

theorem SeqFromF_nan {dt : ℚ} {k : ℕ} {bs out : List BoidF}
    (h : SeqFromF dt k bs out) :
    ∀ i, i < bs.length → isNaNBoid (bs.getD i default) →
      isNaNBoid (out.getD i default) := by
  induction h with
  | done _ _ _ => exact fun i _ hn => hn
  | step j bs s out hj hspec htail ih =>
    intro i hi hn
    by_cases hji : j = i
    · subst hji
      exact ih j (by rw [List.length_set]; exact hj)
        (by rw [getD_set_self _ _ _ hj]; exact update_boidF_nan bs j dt s hn hspec)
    · exact ih i (by rw [List.length_set]; exact hi)
        (by rw [getD_set_ne _ _ _ _ hji]; exact hn)

theorem iterF_nan {n : ℕ} {bs out : List BoidF}
    (h : update_boidsF_iter n bs out) :
    ∀ i, i < bs.length → isNaNBoid (bs.getD i default) →
      isNaNBoid (out.getD i default) := by
  induction h with
  | zero _ => exact fun i _ hn => hn
  | succ n dt bs mid out htick htail ih =>
    intro i hi hn
    exact ih i (by rw [SeqFromF_length htick]; exact hi) (SeqFromF_nan htick i hi hn)

/-- C1: an agent reaching the speed control with velocity exactly (0, 0)
has pre-clamp speed 0; the clamp branch is taken since 0 < MIN_SPEED, its
rescale divides 0 by 0 producing a non-finite (NaN) velocity, the
position integration then makes the position non-finite, and a fully
non-finite agent stays non-finite through every later tick: every
comparison on NaN is false, so the agent is filtered out of its own scan,
the clamp branch is never taken again, and no step ever restores a
finite value. -/
theorem C1_zero_speed_nan :
    (∀ (boid : BoidF) (s : FP), boid.vx = some 0 → boid.vy = some 0 → sqrtSpecF boid s →
      clampCondF s = true ∧
      (speedClampF s boid).vx = none ∧ (speedClampF s boid).vy = none ∧
      ∀ dt : ℚ, (integrateF dt (speedClampF s boid)).x = none ∧
        (integrateF dt (speedClampF s boid)).y = none) ∧
    (∀ n (bs out : List BoidF), update_boidsF_iter n bs out → ∀ i, i < bs.length →
      isNaNBoid (bs.getD i default) → isNaNBoid (out.getD i default)) := by
  constructor
  · intro boid s hvx hvy hs
    have hs0 : s = some 0 := sqrtSpecF_zero boid s hvx hvy hs
    subst hs0
    have hcond : clampCondF (some 0) = true := by
      simp only [clampCondF, flt_some, Bool.or_eq_true, decide_eq_true_eq]
      left
      norm_num [MIN_SPEED]
    have hvx2 : (speedClampF (some 0) boid).vx = none := by
      rw [speedClampF, hcond]
      simp [hvx]
    have hvy2 : (speedClampF (some 0) boid).vy = none := by
      rw [speedClampF, hcond]
      simp [hvy]
    refine ⟨hcond, hvx2, hvy2, fun dt => ⟨?_, ?_⟩⟩
    · simp [integrateF, hvx2]
    · simp [integrateF, hvy2]
  · intro n bs out h i hi hn
    exact iterF_nan h i hi hn

/-- Fully corrupted agent used by the C1 witness. -/
def nanB : BoidF := ⟨none, none, none, none, some 0, 0⟩

theorem wit1_specN : sqrtSpecF (preClampF [nanB] 0 0) none := by
  have hp := preClampF_nan [nanB] 0 0 ⟨rfl, rfl, rfl, rfl⟩
  unfold sqrtSpecF
  rw [hp.2.2.1, hp.2.2.2]
  exact trivial

theorem wit1_upd : update_boidF [nanB] 0 0 none = nanB := rfl

theorem wit1_tick : update_boidsF 0 [nanB] [nanB] := by
  apply SeqFromF.step 0 [nanB] none [nanB] (by decide) wit1_specN
  rw [wit1_upd]
  exact SeqFromF.done 1 [nanB] (by decide)

theorem wit1_iter : update_boidsF_iter 1 [nanB] [nanB] :=
  update_boidsF_iter.succ 0 0 _ _ _ wit1_tick (update_boidsF_iter.zero _)

/-- C1 witness: the clamp at speed 0 on a concrete agent with velocity
(0, 0) produces non-finite velocity and position, and a concrete fully
corrupted agent survives a full tick unchanged. -/
theorem C1_zero_speed_nan_witness :
    (clampCondF (some 0) = true ∧
      (speedClampF (some 0) ⟨some 5, some 5, some 0, some 0, some 0, 0⟩).vx = none ∧
      (speedClampF (some 0) ⟨some 5, some 5, some 0, some 0, some 0, 0⟩).vy = none ∧
      ((integrateF 1 (speedClampF (some 0) ⟨some 5, some 5, some 0, some 0, some 0, 0⟩)).x
          = none ∧
        (integrateF 1 (speedClampF (some 0) ⟨some 5, some 5, some 0, some 0, some 0, 0⟩)).y
          = none)) ∧
    isNaNBoid (([nanB] : List BoidF).getD 0 default) := by
  have h := C1_zero_speed_nan
  have hspec : sqrtSpecF ⟨some 5, some 5, some 0, some 0, some 0, 0⟩ (some 0) :=
    ⟨le_refl 0, by norm_num⟩
  have h1 := h.1 ⟨some 5, some 5, some 0, some 0, some 0, 0⟩ (some 0) rfl rfl hspec
  exact ⟨⟨h1.1, h1.2.1, h1.2.2.1, h1.2.2.2 1⟩,
    h.2 1 [nanB] [nanB] wit1_iter 0 (by decide) ⟨rfl, rfl, rfl, rfl⟩⟩

end Boids
